import Mathlib

/-!
A verification development for the `openclaw-langsmith` tracing plugin.

The TypeScript sources are shallowly embedded as executable Lean
definitions: pure helpers (`parseModelInfo`, `extractTags`,
`extractUsageFromMessages`, `makeDottedOrder`) become Lean functions, the
`Tracer` and `LangSmithClient` classes become explicit state-passing
functions over their field state, and the nondeterministic inputs drawn
inside the methods (`crypto.randomUUID()`, `new Date()`) become explicit
parameters.  JavaScript `Map` objects are modelled as association lists,
and optional / possibly-`undefined` values as `Option`.
-/

namespace OpenClawLangSmith

/-- JS `String.prototype.split` with a one-character separator, modelled on
the underlying character list.  `split '/'` of `"a/b/c"` is
`["a","b","c"]`; of `""` it is `[""]`; of `"/"` it is `["",""]`. -/
def splitOnChar (sep : Char) : List Char → List (List Char)
  | [] => [[]]
  | c :: cs =>
    match splitOnChar sep cs with
    | [] => [[]]
    | h :: t => if c = sep then [] :: h :: t else (c :: h) :: t

/-- JS `Array.prototype.join` with a one-character separator (the inverse
direction of `splitOnChar`). -/
def joinChar (sep : Char) : List (List Char) → List Char
  | [] => []
  | [x] => x
  | x :: y :: t => x ++ sep :: joinChar sep (y :: t)

/-- JS `String.prototype.startsWith`, modelled on character lists. -/
def strStartsWith (s p : String) : Bool :=
  p.data.isPrefixOf s.data

/-- JS `String.prototype.includes` for a one-character needle. -/
def strContainsChar (s : String) (c : Char) : Bool :=
  s.data.contains c

/-- `ModelInfo` from `src/types.ts`: the resolved `{provider, model}`
identity pair. -/
structure ModelInfo where
  provider : String
  model : String
deriving DecidableEq, Repr

/-- `parseModelInfo` from `src/tracer.ts` (lines 22-49).  Precedence:
explicit provider if truthy (JS truthiness: the empty string is falsy and
falls through), else split a `"provider/model"` string on `"/"` with the
remainder re-joined, else infer from the prefix table, defaulting to
`"unknown"`. -/
def parseModelInfo (model : String) (provider : Option String := none) : ModelInfo :=
  if provider.getD "" ≠ "" then
    { provider := provider.getD "", model := model }
  else if strContainsChar model '/' then
    match splitOnChar '/' model.data with
    | [] => { provider := "", model := model }
    | prov :: rest => { provider := ⟨prov⟩, model := ⟨joinChar '/' rest⟩ }
  else
    let inferredProvider :=
      if strStartsWith model "claude" then "anthropic"
      else if strStartsWith model "gpt-" || strStartsWith model "o1" ||
          strStartsWith model "o3" then "openai"
      else if strStartsWith model "gemini" then "google"
      else if strStartsWith model "glm" then "zai"
      else if strStartsWith model "kimi" then "kimi"
      else "unknown"
    { provider := inferredProvider, model := model }

/-- JS regex `\s` on the ASCII range (Unicode space characters are not
modelled; the prompts fed to the tag regexes are ASCII-framed). -/
def jsWhitespace (c : Char) : Bool :=
  c = ' ' || c = '\t' || c = '\n' || c = '\r' || c = '\x0b' || c = '\x0c'

/-- JS `String.prototype.trim` over `jsWhitespace`. -/
def jsTrim (s : String) : String :=
  ⟨((s.data.dropWhile jsWhitespace).reverse.dropWhile jsWhitespace).reverse⟩

/-- One anchored attempt of the regex `\[cron:[^\s]+\s+([^\(]+)\s*\(` from
`extractTags` (src/tracer.ts line 77), returning the first capture group:
after the literal `"[cron:"`, a maximal non-space run (at least one
character), at least one whitespace character, then the capture runs up to
the first `'('`; backtracking lets the capture begin inside the whitespace
run when the `'('` appears early, so the space run keeps `min w (q-1)`
characters. -/
def cronCaptureAt (l : List Char) : Option String :=
  if "[cron:".data.isPrefixOf l then
    let r := l.drop 6
    let a := r.takeWhile (fun c => !jsWhitespace c)
    if a.isEmpty then none
    else
      let r2 := r.drop a.length
      let w := (r2.takeWhile jsWhitespace).length
      match r2.findIdx? (· = '(') with
      | none => none
      | some q =>
        if w = 0 || q < 2 then none
        else
          let s := min w (q - 1)
          some ⟨(r2.drop s).take (q - s)⟩
  else none

/-- Leftmost match of the cron-name regex: first start position at which
`cronCaptureAt` succeeds. -/
def findCronCapture : List Char → Option String
  | [] => none
  | c :: cs =>
    match cronCaptureAt (c :: cs) with
    | some r => some r
    | none => findCronCapture cs

/-- One anchored attempt of the regex `\[Discord Guild (#[^\s]+)` from
`extractTags` (src/tracer.ts line 85): the literal `"[Discord Guild "`,
then the capture is `'#'` followed by a maximal non-space run of at least
one character. -/
def guildCaptureAt (l : List Char) : Option String :=
  if "[Discord Guild ".data.isPrefixOf l then
    match l.drop 15 with
    | '#' :: rest =>
      let a := rest.takeWhile (fun c => !jsWhitespace c)
      if a.isEmpty then none else some ⟨'#' :: a⟩
    | _ => none
  else none

/-- Leftmost match of the Discord-guild regex. -/
def findGuildCapture : List Char → Option String
  | [] => none
  | c :: cs =>
    match guildCaptureAt (c :: cs) with
    | some r => some r
    | none => findGuildCapture cs

/-- The session-key block of `extractTags` (src/tracer.ts lines 56-73):
the `cron` / `discord` / `telegram` / `slack` else-if chain over the
colon-separated segments.  JS `parts[i]` being `undefined` or `""` is
falsy, which `getD _ "" ≠ ""` models; `List.indexOf` returns the first
index, as JS `Array.prototype.indexOf` does. -/
def sourceTags (parts : List String) : List String :=
  if parts.contains "cron" then
    let cronIdx := parts.indexOf "cron"
    let base := ["cron"]
    if parts.getD (cronIdx + 1) "" ≠ "" then
      base ++ ["job:" ++ parts.getD (cronIdx + 1) ""]
    else base
  else if parts.contains "discord" then
    let channelIdx := parts.indexOf "channel"
    let base := ["discord"]
    if parts.contains "channel" then
      if parts.getD (channelIdx + 1) "" ≠ "" then
        base ++ ["channel:" ++ parts.getD (channelIdx + 1) ""]
      else base
    else base
  else if parts.contains "telegram" then ["telegram"]
  else if parts.contains "slack" then ["slack"]
  else []

/-- First prompt block of `extractTags` (src/tracer.ts lines 76-81):
appends `name:<trimmed capture>` when the tags contain `cron` and the cron
regex matches the prompt. -/
def cronNameStage (tags : List String) (pr : String) : List String :=
  if tags.contains "cron" then
    match findCronCapture pr.data with
    | some nm => tags ++ ["name:" ++ jsTrim nm]
    | none => tags
  else tags

/-- Second prompt block of `extractTags` (src/tracer.ts lines 84-89):
appends `guild:<capture>` when the tags contain `discord` and the guild
regex matches the prompt. -/
def guildStage (tags : List String) (pr : String) : List String :=
  if tags.contains "discord" then
    match findGuildCapture pr.data with
    | some g => tags ++ ["guild:" ++ g]
    | none => tags
  else tags

/-- The prompt-dependent part of `extractTags`: both blocks run only when
a prompt was supplied. -/
def promptTags (tags : List String) (prompt : Option String) : List String :=
  match prompt with
  | some pr => guildStage (cronNameStage tags pr) pr
  | none => tags

/-- The colon-separated segments of a session key:
`sessionKey.split(":")` from src/tracer.ts line 56. -/
def sessionSegments (sessionKey : String) : List String :=
  (splitOnChar ':' sessionKey.data).map (fun p => (⟨p⟩ : String))

/-- `extractTags` from `src/tracer.ts` (lines 52-92): the session-key
else-if chain followed by the two prompt regex blocks. -/
def extractTags (sessionKey : String) (prompt : Option String := none) : List String :=
  promptTags (sourceTags (sessionSegments sessionKey)) prompt

/-- The usage object OpenClaw attaches to an assistant message:
`{input, output, cacheRead, cacheWrite}` (src/index.ts lines 22-26).  A
field that is absent or not a number is `none`; the code substitutes 0. -/
structure UsageRaw where
  input : Option Nat := none
  output : Option Nat := none
  cacheRead : Option Nat := none
  cacheWrite : Option Nat := none
deriving DecidableEq, Repr

/-- One entry of a turn-end event's `messages` array.  Only `role` and
`usage` are inspected (src/index.ts lines 13-20); a non-object entry
behaves exactly like a message whose role is not `"assistant"`. -/
structure Message where
  role : Option String := none
  usage : Option UsageRaw := none
deriving DecidableEq, Repr

/-- `TokenUsage` from `src/types.ts`: both LangSmith-style and
OpenClaw-style field names, all optional. -/
structure TokenUsage where
  prompt_tokens : Option Nat := none
  completion_tokens : Option Nat := none
  total_tokens : Option Nat := none
  input_tokens : Option Nat := none
  output_tokens : Option Nat := none
deriving DecidableEq, Repr

/-- The loop of `extractUsageFromMessages` (src/index.ts lines 13-34),
walking the reversed list (the code iterates `i` from the end toward the
start): the first assistant message with a usage object is normalized to
LangSmith field names and returned. -/
def usageScan : List Message → Option TokenUsage
  | [] => none
  | m :: earlier =>
    if m.role = some "assistant" then
      match m.usage with
      | some u =>
        let input := u.input.getD 0
        let output := u.output.getD 0
        let cacheRead := u.cacheRead.getD 0
        let cacheWrite := u.cacheWrite.getD 0
        some { input_tokens := some (input + cacheRead + cacheWrite),
               output_tokens := some output,
               total_tokens := some (input + output + cacheRead + cacheWrite) }
      | none => usageScan earlier
    else usageScan earlier

/-- `extractUsageFromMessages` from `src/index.ts` (lines 9-37). -/
def extractUsageFromMessages (messages : List Message) : Option TokenUsage :=
  usageScan messages.reverse

/-- The claim's side of the scan: "the last assistant message carrying
usage data", stated independently of the code's loop. -/
def isAssistantWithUsage (m : Message) : Bool :=
  m.role == some "assistant" && m.usage.isSome

/-- Modelled from the claim's words: the usage object on the last
assistant message that has one. -/
def specLastAssistantUsage (messages : List Message) : Option UsageRaw :=
  (messages.reverse.find? isAssistantWithUsage).bind (·.usage)

/-- A UTC instant as read through the JS `Date` getters: `month` is the
0-based `getUTCMonth()` and `ms` is `getUTCMilliseconds()`. -/
structure JsDate where
  year : Nat
  month : Nat
  day : Nat
  hour : Nat
  minute : Nat
  second : Nat
  ms : Nat
deriving DecidableEq, Repr

/-- JS `String.prototype.padStart(len, "0")`. -/
def padZero (s : String) (len : Nat) : String :=
  ⟨List.replicate (len - s.data.length) '0' ++ s.data⟩

/-- `pad` from `formatDottedOrderTime` (src/tracer.ts line 96):
`n.toString().padStart(len, "0")`. -/
def pad (n : Nat) (len : Nat := 2) : String :=
  padZero (Nat.repr n) len

/-- `formatDottedOrderTime` (src/tracer.ts lines 95-98):
`YYYYMMDDTHHMMSSmmm000Z`; the year is interpolated unpadded, month is
1-based, milliseconds are padded to three digits and suffixed with
`"000Z"`. -/
def formatDottedOrderTime (d : JsDate) : String :=
  Nat.repr d.year ++ pad (d.month + 1) ++ pad d.day ++ "T" ++ pad d.hour ++
    pad d.minute ++ pad d.second ++ pad d.ms 3 ++ "000Z"

/-- The `cleanId` step of `makeDottedOrder` (src/tracer.ts line 103):
`runId.replace` with a global dash pattern, i.e. drop every `'-'`. -/
def stripDashes (s : String) : String :=
  ⟨s.data.filter (fun c => c ≠ '-')⟩

/-- `makeDottedOrder` (src/tracer.ts lines 101-108), with the `new Date()`
drawn inside the function passed explicitly as `now`. -/
def makeDottedOrder (now : JsDate) (runId : String)
    (parentDottedOrder : Option String := none) : String :=
  let ts := formatDottedOrderTime now
  let cleanId := stripDashes runId
  match parentDottedOrder with
  | some p => p ++ "." ++ ts ++ cleanId
  | none => ts ++ cleanId

/-- JS `Date.prototype.toISOString` (years 0-9999). -/
def JsDate.toISOString (d : JsDate) : String :=
  pad d.year 4 ++ "-" ++ pad (d.month + 1) ++ "-" ++ pad d.day ++ "T" ++
    pad d.hour ++ ":" ++ pad d.minute ++ ":" ++ pad d.second ++ "." ++
    pad d.ms 3 ++ "Z"

/-- `PluginConfig` from `src/types.ts`, with the defaults applied by
`parseConfig` (src/config.ts). -/
structure PluginConfig where
  langsmithApiKey : Option String := none
  langsmithEndpoint : String := "https://api.smith.langchain.com"
  projectName : String := "openclaw"
  traceAgentTurns : Bool := true
  traceToolCalls : Bool := true
  traceEngramLlm : Bool := true
  batchIntervalMs : Nat := 1000
  batchMaxSize : Nat := 20
  debug : Bool := false
deriving DecidableEq, Repr

/-- An opaque JSON-ish payload passed through untouched (tool params and
results). -/
inductive JVal where
  | jnull
  | jstr (s : String)
  | jnum (n : Nat)
deriving DecidableEq, Repr

/-- The `usage_metadata` object LangSmith reads token counts from
(src/tracer.ts lines 209-213). -/
structure UsageMetadata where
  input_tokens : Nat
  output_tokens : Nat
  total_tokens : Nat
deriving DecidableEq, Repr

/-- An `outputs` object; keys a given code path does not set remain
`none`, mirroring JS object spreads of optional parts. -/
structure OutputsBag where
  messages : Option (List Message) := none
  success : Option Bool := none
  model : Option String := none
  provider : Option String := none
  all_models : Option (List String) := none
  usage_metadata : Option UsageMetadata := none
  completion : Option String := none
  result : Option JVal := none
deriving DecidableEq, Repr

/-- An `extra.metadata` object. -/
structure MetadataBag where
  sessionKey : Option String := none
  durationMs : Option Nat := none
  model : Option String := none
  provider : Option String := none
  models_used : Option (List String) := none
  operation : Option String := none
deriving DecidableEq, Repr

/-- An `extra` object: metadata bag plus the duplicated `extra.usage`. -/
structure ExtraBag where
  metadata : Option MetadataBag := none
  usage : Option UsageMetadata := none
deriving DecidableEq, Repr

/-- An `inputs` object: agent runs carry `prompt`, tool runs carry
`params`. -/
structure InputsBag where
  prompt : Option String := none
  params : Option JVal := none
deriving DecidableEq, Repr

/-- `LangSmithRun` from `src/types.ts` (a create-record body). -/
structure LangSmithRun where
  id : String
  trace_id : String
  dotted_order : String
  name : String
  run_type : String
  inputs : InputsBag
  outputs : Option OutputsBag := none
  parent_run_id : Option String := none
  start_time : String
  end_time : Option String := none
  error : Option String := none
  extra : Option ExtraBag := none
  session_name : String
  prompt_tokens : Option Nat := none
  completion_tokens : Option Nat := none
  total_tokens : Option Nat := none
  tags : Option (List String) := none
deriving DecidableEq, Repr

/-- The `Partial<LangSmithRun>` patch built by `endAgentRun` /
`endToolRun`; the fields those methods always set are non-optional. -/
structure RunPatch where
  id : String
  trace_id : String
  dotted_order : String
  end_time : String
  outputs : Option OutputsBag := none
  prompt_tokens : Option Nat := none
  completion_tokens : Option Nat := none
  total_tokens : Option Nat := none
  extra : Option ExtraBag := none
  tags : Option (List String) := none
  error : Option String := none
deriving DecidableEq, Repr

/-- A record handed from the `Tracer` to the client: `createRun` or
`updateRun`. -/
inductive SinkOp where
  | create (run : LangSmithRun)
  | update (runId : String) (patch : RunPatch)
deriving DecidableEq, Repr

/-- `ActiveRun` from `src/tracer.ts` (lines 5-12). -/
structure ActiveRun where
  runId : String
  traceId : String
  dottedOrder : String
  parentRunId : Option String := none
  startTime : String
  input : Option String := none
deriving DecidableEq, Repr

/-- `Map.prototype.get`. -/
def mapGet {α : Type} (m : List (String × α)) (k : String) : Option α :=
  (m.find? (fun p => p.1 == k)).map (·.2)

/-- `Map.prototype.set`: replace in place if the key exists, else append
(JS maps preserve insertion order). -/
def mapSet {α : Type} (m : List (String × α)) (k : String) (v : α) :
    List (String × α) :=
  if (m.find? (fun p => p.1 == k)).isSome then
    m.map (fun p => if p.1 == k then (k, v) else p)
  else m ++ [(k, v)]

/-- `Map.prototype.delete`. -/
def mapDelete {α : Type} (m : List (String × α)) (k : String) :
    List (String × α) :=
  m.filter (fun p => p.1 != k)

/-- The mutable fields of the `Tracer` class (src/tracer.ts lines
110-116): active agent runs keyed by session key, active tool runs keyed
by tool-call id, and the per-session model ledger. -/
structure TracerState where
  activeAgentRuns : List (String × ActiveRun) := []
  activeToolRuns : List (String × ActiveRun) := []
  sessionModels : List (String × List ModelInfo) := []
deriving DecidableEq, Repr

/-- `Tracer.recordLlmCall` (src/tracer.ts lines 124-130): resolve the
identity and append it to the session's model ledger. -/
def recordLlmCall (s : TracerState) (sessionKey model : String)
    (provider : Option String := none) : TracerState :=
  let modelInfo := parseModelInfo model provider
  let models := (mapGet s.sessionModels sessionKey).getD []
  { s with sessionModels := mapSet s.sessionModels sessionKey (models ++ [modelInfo]) }

/-- `Tracer.getSessionModelInfo` (src/tracer.ts lines 133-138): the last
(most recent) ledger entry, or `none` for an absent or empty ledger. -/
def getSessionModelInfo (s : TracerState) (sessionKey : String) : Option ModelInfo :=
  match mapGet s.sessionModels sessionKey with
  | none => none
  | some models => models.getLast?

/-- The seen-set duplicate filter inside `getAllSessionModels`: keeps the
first occurrence of each string, preserving order. -/
def dedupSeen (seen : List String) : List String → List String
  | [] => []
  | x :: xs => if x ∈ seen then dedupSeen seen xs else x :: dedupSeen (x :: seen) xs

/-- `Tracer.getAllSessionModels` (src/tracer.ts lines 141-153): the
deduplicated `provider/model` strings of the ledger, in first-seen
order. -/
def getAllSessionModels (s : TracerState) (sessionKey : String) : List String :=
  match mapGet s.sessionModels sessionKey with
  | none => []
  | some models => dedupSeen [] (models.map (fun m => m.provider ++ "/" ++ m.model))

/-- `Tracer.startAgentRun` (src/tracer.ts lines 155-183).  The
`crypto.randomUUID()` and `new Date()` drawn inside are the `runId` and
`now` parameters. -/
def startAgentRun (cfg : PluginConfig) (s : TracerState) (sessionKey prompt : String)
    (runId : String) (now : JsDate) : TracerState × List SinkOp :=
  let startTime := now.toISOString
  let dottedOrder := makeDottedOrder now runId none
  let tags := extractTags sessionKey (some prompt)
  let entry : ActiveRun := {
    runId := runId, traceId := runId,
    dottedOrder := dottedOrder, startTime := startTime }
  let s1 := { s with activeAgentRuns := mapSet s.activeAgentRuns sessionKey entry }
  let run : LangSmithRun := {
    id := runId
    trace_id := runId
    dotted_order := dottedOrder
    name := "agent_turn"
    run_type := "llm"
    inputs := { prompt := some prompt }
    start_time := startTime
    session_name := cfg.projectName
    tags := if tags.length > 0 then some tags else none
    extra := some { metadata := some { sessionKey := some sessionKey } } }
  (s1, [SinkOp.create run])

/-- `Tracer.endAgentRun` (src/tracer.ts lines 185-270).  An unmatched
session key is a no-op; otherwise the active entry and the session ledger
are removed and one update record is emitted, with usage normalized from
the `TokenUsage` argument and the token fields present only when the
total is positive. -/
def endAgentRun (cfg : PluginConfig) (s : TracerState) (sessionKey : String)
    (messages : List Message) (success : Bool) (usage : Option TokenUsage)
    (durationMs : Option Nat) (now : JsDate) : TracerState × List SinkOp :=
  match mapGet s.activeAgentRuns sessionKey with
  | none => (s, [])
  | some active =>
    let s1 := { s with activeAgentRuns := mapDelete s.activeAgentRuns sessionKey }
    let modelInfo := getSessionModelInfo s sessionKey
    let allModels := getAllSessionModels s sessionKey
    let s2 := { s1 with sessionModels := mapDelete s1.sessionModels sessionKey }
    let promptTokens := ((usage.bind (·.prompt_tokens)).orElse
      (fun _ => usage.bind (·.input_tokens))).getD 0
    let completionTokens := ((usage.bind (·.completion_tokens)).orElse
      (fun _ => usage.bind (·.output_tokens))).getD 0
    let totalTokens := (usage.bind (·.total_tokens)).getD (promptTokens + completionTokens)
    let usageMetadata : Option UsageMetadata :=
      if totalTokens > 0 then
        some { input_tokens := promptTokens, output_tokens := completionTokens,
               total_tokens := totalTokens }
      else none
    let patch : RunPatch := {
      id := active.runId
      trace_id := active.traceId
      dotted_order := active.dottedOrder
      end_time := now.toISOString
      outputs := some {
        messages := some messages
        success := some success
        model := modelInfo.map (·.model)
        provider := modelInfo.map (·.provider)
        all_models := if allModels.length > 1 then some allModels else none
        usage_metadata := usageMetadata }
      prompt_tokens := if totalTokens > 0 then some promptTokens else none
      completion_tokens := if totalTokens > 0 then some completionTokens else none
      total_tokens := if totalTokens > 0 then some totalTokens else none
      extra := some {
        metadata := some {
          sessionKey := some sessionKey
          durationMs := durationMs
          model := modelInfo.map (·.model)
          provider := modelInfo.map (·.provider)
          models_used := if allModels.length > 0 then some allModels else none }
        usage := usageMetadata }
      tags := some (match modelInfo with
        | some mi => ["provider:" ++ mi.provider, "model:" ++ mi.model]
        | none => [])
      error := if success then none else some "Agent turn failed" }
    (s2, [SinkOp.update active.runId patch])

/-- `Tracer.startToolRun` (src/tracer.ts lines 272-306): the parent is
the agent run currently open for the session; the trace id is inherited
from it or falls back to the tool's own id. -/
def startToolRun (cfg : PluginConfig) (s : TracerState) (sessionKey toolName : String)
    (params : JVal) (runId : String) (now : JsDate) :
    TracerState × List SinkOp × Option String :=
  let startTime := now.toISOString
  let parentRun := mapGet s.activeAgentRuns sessionKey
  let parentRunId := parentRun.map (·.runId)
  let traceId := (parentRun.map (·.traceId)).getD runId
  let dottedOrder := makeDottedOrder now runId (parentRun.map (·.dottedOrder))
  let entry : ActiveRun := {
    runId := runId, traceId := traceId,
    dottedOrder := dottedOrder, parentRunId := parentRunId, startTime := startTime }
  let s1 := { s with activeToolRuns := mapSet s.activeToolRuns runId entry }
  let run : LangSmithRun := {
    id := runId
    trace_id := traceId
    dotted_order := dottedOrder
    name := toolName
    run_type := "tool"
    inputs := { params := some params }
    parent_run_id := parentRunId
    start_time := startTime
    session_name := cfg.projectName }
  (s1, [SinkOp.create run], some runId)

/-- `Tracer.endToolRun` (src/tracer.ts lines 308-335): an unknown
tool-call id is a no-op; otherwise the entry is removed and one update is
emitted.  JS truthiness: an empty-string `error` is not attached. -/
def endToolRun (s : TracerState) (toolCallId : String) (result : JVal)
    (error : Option String) (now : JsDate) : TracerState × List SinkOp :=
  match mapGet s.activeToolRuns toolCallId with
  | none => (s, [])
  | some active =>
    let s1 := { s with activeToolRuns := mapDelete s.activeToolRuns toolCallId }
    let patch : RunPatch := {
      id := active.runId
      trace_id := active.traceId
      dotted_order := active.dottedOrder
      end_time := now.toISOString
      outputs := some { result := some result }
      error := match error with
        | some e => if e ≠ "" then some e else none
        | none => none }
    (s1, [SinkOp.update active.runId patch])

/-- The engram token-usage shape `{input?, output?, total?}` from
`src/types.ts`. -/
structure TokenUsageEngram where
  input : Option Nat := none
  output : Option Nat := none
  total : Option Nat := none
deriving DecidableEq, Repr

/-- `LlmTraceEvent` from `src/types.ts`. -/
structure LlmTraceEvent where
  kind : String
  traceId : String
  model : String
  operation : String
  input : Option String := none
  output : Option String := none
  durationMs : Option Nat := none
  error : Option String := none
  tokenUsage : Option TokenUsageEngram := none
deriving DecidableEq, Repr

/-- `Tracer.traceLlmCall` (src/tracer.ts lines 337-420): an `llm_start`
event only parks an entry under key `llm:<traceId>` in the tool-run map;
a terminal event removes that entry (when present) and emits one complete
create record, reusing the parked start time, ordering key and input. -/
def traceLlmCall (cfg : PluginConfig) (s : TracerState) (event : LlmTraceEvent)
    (now : JsDate) : TracerState × List SinkOp :=
  if event.kind = "llm_start" then
    let dottedOrder := makeDottedOrder now event.traceId none
    let entry : ActiveRun := {
      runId := event.traceId, traceId := event.traceId,
      dottedOrder := dottedOrder, startTime := now.toISOString,
      input := event.input }
    let llmKey := "llm:" ++ event.traceId
    let s1 := { s with activeToolRuns := mapSet s.activeToolRuns llmKey entry }
    (s1, [])
  else
    let startEntry := mapGet s.activeToolRuns ("llm:" ++ event.traceId)
    let s1 := match startEntry with
      | some _ => { s with activeToolRuns := mapDelete s.activeToolRuns ("llm:" ++ event.traceId) }
      | none => s
    let startTime := (startEntry.map (·.startTime)).getD now.toISOString
    let endTime := now.toISOString
    let dottedOrder := (startEntry.map (·.dottedOrder)).getD
      (makeDottedOrder now event.traceId none)
    let inputText := ((startEntry.bind (·.input)).orElse
      (fun _ => event.input)).getD "(not captured)"
    let promptTokens := (event.tokenUsage.bind (·.input)).getD 0
    let completionTokens := (event.tokenUsage.bind (·.output)).getD 0
    let totalTokens := (event.tokenUsage.bind (·.total)).getD
      (promptTokens + completionTokens)
    let usageMetadata : Option UsageMetadata :=
      if totalTokens > 0 then
        some { input_tokens := promptTokens, output_tokens := completionTokens,
               total_tokens := totalTokens }
      else none
    let run : LangSmithRun := {
      id := event.traceId
      trace_id := event.traceId
      dotted_order := dottedOrder
      name := "engram:" ++ event.operation
      run_type := "llm"
      inputs := { prompt := some inputText }
      outputs := some {
        completion := match event.output with
          | some o => if o ≠ "" then some o else none
          | none => none
        usage_metadata := usageMetadata }
      start_time := startTime
      end_time := some endTime
      error := event.error
      session_name := cfg.projectName
      prompt_tokens := if totalTokens > 0 then some promptTokens else none
      completion_tokens := if totalTokens > 0 then some completionTokens else none
      total_tokens := if totalTokens > 0 then some totalTokens else none
      extra := some {
        metadata := some {
          model := some event.model
          operation := some event.operation
          durationMs := event.durationMs }
        usage := usageMetadata } }
    (s1, [SinkOp.create run])

/-- The `before_agent_start` hook handler (src/index.ts lines 60-66): a
missing context session key defaults to `"default"`; only a truthy
(present, non-empty) prompt starts an agent run. -/
def handleBeforeAgentStart (cfg : PluginConfig) (s : TracerState)
    (ctxSessionKey : Option String) (prompt : Option String) (runId : String)
    (now : JsDate) : TracerState × List SinkOp :=
  let sessionKey := ctxSessionKey.getD "default"
  match prompt with
  | some p => if p ≠ "" then startAgentRun cfg s sessionKey p runId now else (s, [])
  | none => (s, [])

/-- The `agent_end` hook handler (src/index.ts lines 72-80): extracts the
usage from the event's messages and forwards everything to
`endAgentRun`; `!!event.success` is the `success` boolean. -/
def handleAgentEnd (cfg : PluginConfig) (s : TracerState)
    (ctxSessionKey : Option String) (messages : List Message) (success : Bool)
    (durationMs : Option Nat) (now : JsDate) : TracerState × List SinkOp :=
  let sessionKey := ctxSessionKey.getD "default"
  let usage := extractUsageFromMessages messages
  endAgentRun cfg s sessionKey messages success usage durationMs now

/-- HTTP method of a queued batch operation (src/client.ts line 5). -/
inductive HttpMethod where
  | post
  | patch
deriving DecidableEq, Repr

/-- The body of a queued batch operation. -/
inductive OpBody where
  | runBody (run : LangSmithRun)
  | patchBody (runPatch : RunPatch)
deriving DecidableEq, Repr

/-- `BatchOp` from `src/client.ts` (lines 4-8). -/
structure BatchOp where
  method : HttpMethod
  path : String
  body : OpBody
deriving DecidableEq, Repr

/-- The mutable queue of `LangSmithClient` (src/client.ts line 11). -/
structure ClientState where
  queue : List BatchOp := []
deriving DecidableEq, Repr

/-- The op pushed by `LangSmithClient.createRun` (src/client.ts line
32). -/
def createRunOp (run : LangSmithRun) : BatchOp :=
  { method := HttpMethod.post, path := "/runs", body := OpBody.runBody run }

/-- The op pushed by `LangSmithClient.updateRun` (src/client.ts line
39). -/
def updateRunOp (runId : String) (runPatch : RunPatch) : BatchOp :=
  { method := HttpMethod.patch, path := "/runs/" ++ runId,
    body := OpBody.patchBody runPatch }

/-- `LangSmithClient.flush` up to its `await` (src/client.ts lines
45-49): an empty queue returns immediately with no network call (`none`);
otherwise `splice(0)` empties the buffer synchronously and the drained
contents become the in-flight batch. -/
def flushStart (s : ClientState) : ClientState × Option (List BatchOp) :=
  if s.queue.isEmpty then (s, none)
  else ({ queue := [] }, some s.queue)

/-- The request body assembled by `flush` (src/client.ts lines 52-69):
creates are the POST bodies in order, updates the PATCH bodies. -/
def buildBatchBody (batch : List BatchOp) : List OpBody × List OpBody :=
  ((batch.filter (fun op => op.method == HttpMethod.post)).map (·.body),
   (batch.filter (fun op => op.method == HttpMethod.patch)).map (·.body))

/-- The response-handling tail of `flush` (src/client.ts lines 80-89): a
non-ok response or a thrown transport error only logs a warning; the
client state is untouched either way — the in-flight batch is dropped and
never re-enqueued. -/
def flushComplete (s : ClientState) (respOk : Bool) : ClientState := s

/-- `LangSmithClient.createRun` (src/client.ts lines 31-36): push, then
flush once the buffered count reaches `batchMaxSize`. -/
def createRun (cfg : PluginConfig) (s : ClientState) (run : LangSmithRun) :
    ClientState × Option (List BatchOp) :=
  let s1 : ClientState := { queue := s.queue ++ [createRunOp run] }
  if s1.queue.length ≥ cfg.batchMaxSize then flushStart s1 else (s1, none)

/-- `LangSmithClient.updateRun` (src/client.ts lines 38-43). -/
def updateRun (cfg : PluginConfig) (s : ClientState) (runId : String)
    (runPatch : RunPatch) : ClientState × Option (List BatchOp) :=
  let s1 : ClientState := { queue := s.queue ++ [updateRunOp runId runPatch] }
  if s1.queue.length ≥ cfg.batchMaxSize then flushStart s1 else (s1, none)

/-- The token-field triple of an update record (`none` for a create
record). -/
def patchTokenFields : SinkOp → Option (Option Nat × Option Nat × Option Nat)
  | SinkOp.update _ p => some (p.prompt_tokens, p.completion_tokens, p.total_tokens)
  | SinkOp.create _ => none

/-- The tags of an update record (`none` for a create record). -/
def patchTags : SinkOp → Option (Option (List String))
  | SinkOp.update _ p => some p.tags
  | SinkOp.create _ => none

/-- The tags of a create record (`none` for an update record). -/
def createTags : SinkOp → Option (Option (List String))
  | SinkOp.create r => some r.tags
  | SinkOp.update _ _ => none

/-- Modelled from the claim's words (amended): the token fields the claim
expects on the turn's update record — the normalization
`promptTokens = input + cacheRead + cacheWrite`,
`completionTokens = output`, `totalTokens = promptTokens +
completionTokens` of the usage on the last assistant message carrying
usage data, emitted only when the total is positive, and absent when no
such message exists. -/
def claimTokenTriple (messages : List Message) :
    Option Nat × Option Nat × Option Nat :=
  match specLastAssistantUsage messages with
  | some u =>
    let pt := u.input.getD 0 + u.cacheRead.getD 0 + u.cacheWrite.getD 0
    let ct := u.output.getD 0
    if 0 < pt + ct then (some pt, some ct, some (pt + ct)) else (none, none, none)
  | none => (none, none, none)

/-- Parent and trace identifiers of a create record. -/
def createParentTrace : SinkOp → Option (Option String × String)
  | SinkOp.create r => some (r.parent_run_id, r.trace_id)
  | SinkOp.update _ _ => none

/-- Target run id and trace identifier of an update record. -/
def updateTrace : SinkOp → Option (String × String)
  | SinkOp.update i p => some (i, p.trace_id)
  | SinkOp.create _ => none

/-- The outputs bag of an update record (`none` for a create record). -/
def patchOutputs : SinkOp → Option (Option OutputsBag)
  | SinkOp.update _ p => some p.outputs
  | SinkOp.create _ => none

/-- A concrete open turn span used by concrete evaluations below. -/
def sampleActive : ActiveRun :=
  { runId := "r0", traceId := "r0", dottedOrder := "o0", startTime := "s0" }

/-- A registry with one open turn for session key `"k"`. -/
def sampleState : TracerState := { activeAgentRuns := [("k", sampleActive)] }

/-- A concrete instant. -/
def sampleDate : JsDate := ⟨2026, 1, 8, 12, 30, 45, 123⟩

/-- A message list whose last assistant message has usage
`{input 10, output 5, cacheRead 2, cacheWrite 1}`. -/
def usageMessages : List Message :=
  [{ role := some "user" },
   { role := some "assistant",
     usage := some { input := some 10, output := some 5, cacheRead := some 2,
                     cacheWrite := some 1 } }]

/-- A message list whose only assistant message carries a usage object
normalizing to zero tokens. -/
def zeroUsageMessages : List Message :=
  [{ role := some "assistant", usage := some {} }]

/-- A two-identity session ledger for session `"k"`. -/
def sampleLedger : List ModelInfo :=
  [{ provider := "anthropic", model := "claude-3" },
   { provider := "openai", model := "gpt-5" }]

/-- A registry with an open turn and a populated ledger for `"k"`. -/
def sampleLedgerState : TracerState :=
  { activeAgentRuns := [("k", sampleActive)],
    sessionModels := [("k", sampleLedger)] }

/-- A terminal engram model-call event. -/
def sampleLlmEnd : LlmTraceEvent :=
  { kind := "llm_end", traceId := "tr1", model := "claude-3",
    operation := "extract" }

/-- A concrete create-record body. -/
def sampleRun : LangSmithRun :=
  { id := "r0", trace_id := "r0", dotted_order := "o0", name := "agent_turn",
    run_type := "llm", inputs := {}, start_time := "s0",
    session_name := "openclaw" }

/-- A client whose buffer holds one queued create. -/
def sampleClientState : ClientState := { queue := [createRunOp sampleRun] }

/-- The claim's "created before", read off the creation instants at the
millisecond resolution of the JS clock: chronological (lexicographic)
strict order on the date fields. -/
def JsDate.before (a b : JsDate) : Prop :=
  a.year < b.year ∨ (a.year = b.year ∧
    (a.month < b.month ∨ (a.month = b.month ∧
      (a.day < b.day ∨ (a.day = b.day ∧
        (a.hour < b.hour ∨ (a.hour = b.hour ∧
          (a.minute < b.minute ∨ (a.minute = b.minute ∧
            (a.second < b.second ∨ (a.second = b.second ∧
              a.ms < b.ms)))))))))))

instance (a b : JsDate) : Decidable (JsDate.before a b) := by
  unfold JsDate.before
  infer_instance

/-- Ranges of a valid JS `Date` reading with a four-digit year: month is
the 0-based `getUTCMonth`. -/
def JsDate.valid (d : JsDate) : Prop :=
  1000 ≤ d.year ∧ d.year ≤ 9999 ∧ d.month ≤ 11 ∧ d.day ≤ 31 ∧ d.hour ≤ 23 ∧
    d.minute ≤ 59 ∧ d.second ≤ 59 ∧ d.ms ≤ 999

instance (d : JsDate) : Decidable (JsDate.valid d) := by
  unfold JsDate.valid
  infer_instance

/-- The fixed-width big-endian decimal digit string of `n`, `len` digits
(the mathematical shape of `pad`; see `pad_digitsBE`). -/
def digitsBE : Nat → Nat → List Char
  | 0, _ => []
  | len + 1, n => digitsBE len (n / 10) ++ [Nat.digitChar (n % 10)]

/-- An instant one millisecond after `sampleDate`. -/
def sampleDateLater : JsDate := ⟨2026, 1, 8, 12, 30, 45, 124⟩

/-! Structural facts about `splitOnChar` / `joinChar` used to settle the
identity-resolution claim. -/

theorem splitOnChar_ne_nil (sep : Char) (l : List Char) : splitOnChar sep l ≠ [] := by
  cases l with
  | nil => simp [splitOnChar]
  | cons c cs =>
    simp only [splitOnChar]
    cases h : splitOnChar sep cs with
    | nil => simp
    | cons x t =>
      by_cases hc : c = sep <;> simp [hc]

theorem joinChar_splitOnChar (sep : Char) (l : List Char) :
    joinChar sep (splitOnChar sep l) = l := by
  induction l with
  | nil => simp [splitOnChar, joinChar]
  | cons c cs ih =>
    simp only [splitOnChar]
    cases h : splitOnChar sep cs with
    | nil => exact absurd h (splitOnChar_ne_nil sep cs)
    | cons x t =>
      rw [h] at ih
      by_cases hc : c = sep
      · subst hc
        cases t <;> simp_all [joinChar]
      · cases t <;> simp_all [joinChar]

/-- The first component produced by `splitOnChar` never contains the
separator. -/
theorem splitOnChar_head_no_sep (sep : Char) (l : List Char) :
    ∀ h t, splitOnChar sep l = h :: t → sep ∉ h := by
  induction l with
  | nil => intro h t heq; simp [splitOnChar] at heq; simp [heq.1]
  | cons c cs ih =>
    intro h t heq
    simp only [splitOnChar] at heq
    cases hs : splitOnChar sep cs with
    | nil => exact absurd hs (splitOnChar_ne_nil sep cs)
    | cons x u =>
      rw [hs] at heq
      by_cases hc : c = sep
      · simp [hc] at heq
        rw [heq.1]
        simp
      · simp [hc] at heq
        have := ih x u hs
        intro hmem
        rcases heq with ⟨rfl, rfl⟩
        rcases List.mem_cons.mp hmem with h1 | h2
        · exact hc h1.symm
        · exact this h2

/-- If the separator occurs in `l` then the split has at least two
components. -/
theorem splitOnChar_two_of_contains (sep : Char) (l : List Char)
    (hmem : sep ∈ l) : ∀ h t, splitOnChar sep l = h :: t → t ≠ [] := by
  induction l with
  | nil => cases hmem
  | cons c cs ih =>
    intro h t heq
    simp only [splitOnChar] at heq
    cases hs : splitOnChar sep cs with
    | nil => exact absurd hs (splitOnChar_ne_nil sep cs)
    | cons x u =>
      rw [hs] at heq
      by_cases hc : c = sep
      · simp [hc] at heq
        rw [← heq.2]
        simp
      · simp [hc] at heq
        rcases List.mem_cons.mp hmem with h1 | h2
        · exact absurd h1.symm hc
        · have := ih h2 x u hs
          rcases heq with ⟨-, rfl⟩
          cases u with
          | nil => exact absurd rfl this
          | cons a b => simp

/-- When no truthy provider is given and the model string contains the
separator, `parseModelInfo` splits on the first occurrence: the returned
provider is the separator-free prefix and re-appending `"/"` and the
returned model reconstructs the original string. -/
theorem parseModelInfo_split (m : String) (prov : Option String)
    (hp : prov.getD "" = "") (hc : strContainsChar m '/' = true) :
    (parseModelInfo m prov).provider.data ++ '/' :: (parseModelInfo m prov).model.data
      = m.data ∧
    '/' ∉ (parseModelInfo m prov).provider.data := by
  have hmem : '/' ∈ m.data := by
    simpa [strContainsChar, List.contains] using hc
  unfold parseModelInfo
  rw [hp]
  simp only [ne_eq, not_true_eq_false, if_false, hc, if_true]
  cases hs : splitOnChar '/' m.data with
  | nil => exact absurd hs (splitOnChar_ne_nil '/' m.data)
  | cons p rest =>
    have hne : rest ≠ [] := splitOnChar_two_of_contains '/' m.data hmem p rest hs
    have hjoin := joinChar_splitOnChar '/' m.data
    rw [hs] at hjoin
    cases rest with
    | nil => exact absurd rfl hne
    | cons y t =>
      refine ⟨?_, splitOnChar_head_no_sep '/' m.data p (y :: t) hs⟩
      simpa [joinChar] using hjoin

/-- C2 counterexample: the claim's prong (1) — "if an explicit provider is
supplied it is used verbatim with the model string as given" — fails for the
explicitly supplied empty-string provider, which JS truthiness treats as
absent: `parseModelInfo "claude-opus-4-5" (some "")` falls through to
prefix inference and yields provider `"anthropic"`, not the supplied
`""`. -/
theorem c2_empty_provider_counterexample :
    parseModelInfo "claude-opus-4-5" (some "")
        ≠ { provider := "", model := "claude-opus-4-5" } ∧
    parseModelInfo "claude-opus-4-5" (some "")
        = { provider := "anthropic", model := "claude-opus-4-5" } := by
  constructor
  · decide
  · decide

/-- C2 (amended): identity resolution is total and deterministic with the
strict precedence: (1) an explicit **non-empty** provider is used verbatim
with the model string as given; (2) else a model string containing `'/'`
is split on the first occurrence — provider is the separator-free prefix
and provider ++ "/" ++ model reconstructs the input, so the remainder
keeps any further separators; (3) else the provider is inferred from the
prefix table (claude→anthropic; gpt-, o1, o3→openai; gemini→google;
glm→zai; kimi→kimi), defaulting to `"unknown"` with the model string
unchanged. -/
theorem c2_identity_resolution :
    (∀ m p, p ≠ "" → parseModelInfo m (some p) = { provider := p, model := m }) ∧
    (∀ m prov, prov.getD "" = "" → strContainsChar m '/' = true →
      (parseModelInfo m prov).provider.data ++ '/' :: (parseModelInfo m prov).model.data
          = m.data ∧
      '/' ∉ (parseModelInfo m prov).provider.data) ∧
    parseModelInfo "anthropic/claude-opus-4-5" none
        = { provider := "anthropic", model := "claude-opus-4-5" } ∧
    parseModelInfo "gpt-5.2" none = { provider := "openai", model := "gpt-5.2" } ∧
    parseModelInfo "mystery-model" none
        = { provider := "unknown", model := "mystery-model" } ∧
    (∀ m prov, prov.getD "" = "" → strContainsChar m '/' = false →
      (strStartsWith m "claude" = true →
        parseModelInfo m prov = { provider := "anthropic", model := m }) ∧
      (strStartsWith m "claude" = false →
        (strStartsWith m "gpt-" || strStartsWith m "o1" || strStartsWith m "o3") = true →
        parseModelInfo m prov = { provider := "openai", model := m }) ∧
      (strStartsWith m "claude" = false →
        (strStartsWith m "gpt-" || strStartsWith m "o1" || strStartsWith m "o3") = false →
        strStartsWith m "gemini" = true →
        parseModelInfo m prov = { provider := "google", model := m }) ∧
      (strStartsWith m "claude" = false →
        (strStartsWith m "gpt-" || strStartsWith m "o1" || strStartsWith m "o3") = false →
        strStartsWith m "gemini" = false → strStartsWith m "glm" = true →
        parseModelInfo m prov = { provider := "zai", model := m }) ∧
      (strStartsWith m "claude" = false →
        (strStartsWith m "gpt-" || strStartsWith m "o1" || strStartsWith m "o3") = false →
        strStartsWith m "gemini" = false → strStartsWith m "glm" = false →
        strStartsWith m "kimi" = true →
        parseModelInfo m prov = { provider := "kimi", model := m }) ∧
      (strStartsWith m "claude" = false →
        (strStartsWith m "gpt-" || strStartsWith m "o1" || strStartsWith m "o3") = false →
        strStartsWith m "gemini" = false → strStartsWith m "glm" = false →
        strStartsWith m "kimi" = false →
        parseModelInfo m prov = { provider := "unknown", model := m })) := by
  refine ⟨?_, fun m prov hp hc => parseModelInfo_split m prov hp hc, by decide, by decide,
    by decide, ?_⟩
  · intro m p hp
    simp [parseModelInfo, hp]
  · intro m prov hp hc
    refine ⟨?_, ?_, ?_, ?_, ?_, ?_⟩ <;>
      · intros
        simp_all [parseModelInfo]

/-- Witness for `c2_identity_resolution`: prong (1) at a concrete
non-empty provider and prong (2) at a model string with two separators. -/
theorem c2_identity_resolution_witness :
    parseModelInfo "claude-x" (some "custom") = { provider := "custom", model := "claude-x" } ∧
    (parseModelInfo "a/b/c" none).provider.data ++ '/'
        :: (parseModelInfo "a/b/c" none).model.data = "a/b/c".data ∧
    parseModelInfo "kimi-k2" none = { provider := "kimi", model := "kimi-k2" } := by
  refine ⟨c2_identity_resolution.1 "claude-x" "custom" (by decide),
    (c2_identity_resolution.2.1 "a/b/c" none (by decide) (by decide)).1,
    (c2_identity_resolution.2.2.2.2.2 "kimi-k2" none (by decide) (by decide)).2.2.2.2.1
      (by decide) (by decide) (by decide) (by decide) (by decide)⟩

/-! Facts about the tag extractor. -/

/-- A string cannot equal `p ++ s` when it already differs from `p` within
`p`'s first `n` characters. -/
theorem ne_append_of_take (x p : String) (n : Nat) (hlen : n ≤ p.data.length)
    (hne : x.data.take n ≠ p.data.take n) : ∀ s, x ≠ p ++ s := by
  intro s heq
  apply hne
  have hd := congrArg String.data heq
  rw [String.data_append] at hd
  rw [hd, List.take_append_of_le_length hlen]

theorem cronNameStage_eq_append (tags : List String) (pr : String) :
    ∃ u, cronNameStage tags pr = tags ++ u := by
  unfold cronNameStage
  cases hcr : tags.contains "cron" with
  | false => exact ⟨[], by simp⟩
  | true =>
    rw [if_pos rfl]
    cases hc : findCronCapture pr.data with
    | none => exact ⟨[], by simp⟩
    | some nm => exact ⟨["name:" ++ jsTrim nm], rfl⟩

theorem guildStage_eq_append (tags : List String) (pr : String) :
    ∃ u, guildStage tags pr = tags ++ u := by
  unfold guildStage
  cases hd : tags.contains "discord" with
  | false => exact ⟨[], by simp⟩
  | true =>
    rw [if_pos rfl]
    cases hg : findGuildCapture pr.data with
    | none => exact ⟨[], by simp⟩
    | some g => exact ⟨["guild:" ++ g], rfl⟩

theorem promptTags_eq_append (tags : List String) (prompt : Option String) :
    ∃ u, promptTags tags prompt = tags ++ u := by
  cases prompt with
  | none => exact ⟨[], by simp [promptTags]⟩
  | some pr =>
    obtain ⟨u1, h1⟩ := cronNameStage_eq_append tags pr
    obtain ⟨u2, h2⟩ := guildStage_eq_append (cronNameStage tags pr) pr
    exact ⟨u1 ++ u2, by rw [promptTags, h2, h1, List.append_assoc]⟩

theorem mem_promptTags {x : String} {tags : List String} (prompt : Option String)
    (h : x ∈ tags) : x ∈ promptTags tags prompt := by
  obtain ⟨u, hu⟩ := promptTags_eq_append tags prompt
  rw [hu]
  exact List.mem_append_left u h

/-- The prompt blocks only ever append `name:`- and `guild:`-prefixed
tags, so any other tag absent before them stays absent. -/
theorem not_mem_promptTags {x : String} (tags : List String) (prompt : Option String)
    (h : x ∉ tags) (hn : ∀ s, x ≠ "name:" ++ s) (hg : ∀ s, x ≠ "guild:" ++ s) :
    x ∉ promptTags tags prompt := by
  cases prompt with
  | none => exact h
  | some pr =>
    rw [promptTags]
    have h1 : x ∉ cronNameStage tags pr := by
      unfold cronNameStage
      cases hcr : tags.contains "cron" with
      | false => simpa using h
      | true =>
        rw [if_pos rfl]
        cases hc : findCronCapture pr.data with
        | none => simpa using h
        | some nm =>
          intro hmem
          rcases List.mem_append.mp hmem with hmem | hmem
          · exact h hmem
          · exact hn (jsTrim nm) (List.mem_singleton.mp hmem)
    unfold guildStage
    cases hd : (cronNameStage tags pr).contains "discord" with
    | false => simpa using h1
    | true =>
      rw [if_pos rfl]
      cases hg2 : findGuildCapture pr.data with
      | none => simpa using h1
      | some g =>
        intro hmem
        rcases List.mem_append.mp hmem with hmem | hmem
        · exact h1 hmem
        · exact hg g (List.mem_singleton.mp hmem)

theorem sourceTags_cron (parts : List String) (h : "cron" ∈ parts) :
    sourceTags parts =
      if parts.getD (parts.indexOf "cron" + 1) "" ≠ "" then
        ["cron", "job:" ++ parts.getD (parts.indexOf "cron" + 1) ""]
      else ["cron"] := by
  by_cases hv : parts.getD (parts.indexOf "cron" + 1) "" = ""
  · simp [sourceTags, h, hv]
  · simp [sourceTags, h, hv]

theorem sourceTags_discord (parts : List String) (h1 : "cron" ∉ parts)
    (h2 : "discord" ∈ parts) :
    sourceTags parts =
      if "channel" ∈ parts then
        if parts.getD (parts.indexOf "channel" + 1) "" ≠ "" then
          ["discord", "channel:" ++ parts.getD (parts.indexOf "channel" + 1) ""]
        else ["discord"]
      else ["discord"] := by
  by_cases hch : "channel" ∈ parts
  · by_cases hv : parts.getD (parts.indexOf "channel" + 1) "" = ""
    · simp [sourceTags, h1, h2, hch, hv]
    · simp [sourceTags, h1, h2, hch, hv]
  · simp [sourceTags, h1, h2, hch]

theorem sourceTags_telegram (parts : List String) (h1 : "cron" ∉ parts)
    (h2 : "discord" ∉ parts) (h3 : "telegram" ∈ parts) :
    sourceTags parts = ["telegram"] := by
  simp [sourceTags, h1, h2, h3]

theorem sourceTags_slack (parts : List String) (h1 : "cron" ∉ parts)
    (h2 : "discord" ∉ parts) (h3 : "telegram" ∉ parts)
    (h4 : "slack" ∈ parts) : sourceTags parts = ["slack"] := by
  simp [sourceTags, h1, h2, h3, h4]

/-- Tags absent from the source tags stay absent from the full extraction
when they cannot be produced by the prompt blocks. -/
theorem source_only {x : String} (k : String) (pr : Option String)
    (hbase : x ∉ sourceTags (sessionSegments k))
    (hn : ∀ s, x ≠ "name:" ++ s) (hg : ∀ s, x ≠ "guild:" ++ s) :
    x ∉ extractTags k pr :=
  not_mem_promptTags _ pr hbase hn hg

/-- C9 counterexample: the claim promises `job:<segment>` whenever **a
segment** immediately follows `cron`, but the code tests JS truthiness, so
the empty segment after `cron` in `"cron:"` yields no `job:` tag at
all. -/
theorem c9_empty_segment_counterexample :
    sessionSegments "cron:" = ["cron", ""] ∧
    extractTags "cron:" none = ["cron"] ∧
    "job:" ∉ extractTags "cron:" none := by
  refine ⟨by decide, by decide, by decide⟩

/-- C9 (amended): tag extraction is total and deterministic, evaluating
source categories in the fixed priority order cron, discord, telegram,
slack with only one source category applying per session key: when the
segments contain `cron` the result contains `cron` (and never `discord`,
`telegram` or `slack`), plus `job:<v>` when the segment `v` after the
first `cron` is **non-empty**; else when they contain `discord` the result
contains `discord` (and no other source tag), plus `channel:<v>` when the
segment `v` after the first `channel` is **non-empty**; else `telegram`,
else `slack` alone; and the two spec examples hold. -/
theorem c9_tag_extraction :
    (∀ k pr, "cron" ∈ sessionSegments k →
      "cron" ∈ extractTags k pr ∧ "discord" ∉ extractTags k pr ∧
        "telegram" ∉ extractTags k pr ∧ "slack" ∉ extractTags k pr) ∧
    (∀ k pr, "cron" ∈ sessionSegments k →
      (sessionSegments k).getD ((sessionSegments k).indexOf "cron" + 1) "" ≠ "" →
      "job:" ++ (sessionSegments k).getD ((sessionSegments k).indexOf "cron" + 1) ""
        ∈ extractTags k pr) ∧
    (∀ k pr, "cron" ∉ sessionSegments k → "discord" ∈ sessionSegments k →
      "discord" ∈ extractTags k pr ∧ "cron" ∉ extractTags k pr ∧
        "telegram" ∉ extractTags k pr ∧ "slack" ∉ extractTags k pr) ∧
    (∀ k pr, "cron" ∉ sessionSegments k → "discord" ∈ sessionSegments k →
      "channel" ∈ sessionSegments k →
      (sessionSegments k).getD ((sessionSegments k).indexOf "channel" + 1) "" ≠ "" →
      "channel:" ++ (sessionSegments k).getD ((sessionSegments k).indexOf "channel" + 1) ""
        ∈ extractTags k pr) ∧
    (∀ k pr, "cron" ∉ sessionSegments k → "discord" ∉ sessionSegments k →
      "telegram" ∈ sessionSegments k → extractTags k pr = ["telegram"]) ∧
    (∀ k pr, "cron" ∉ sessionSegments k → "discord" ∉ sessionSegments k →
      "telegram" ∉ sessionSegments k → "slack" ∈ sessionSegments k →
      extractTags k pr = ["slack"]) ∧
    "cron" ∈ extractTags "agent:generalist:cron:96b7" none ∧
    "job:96b7" ∈ extractTags "agent:generalist:cron:96b7" none ∧
    "discord" ∈ extractTags "agent:generalist:discord:channel:123" none ∧
    "channel:123" ∈ extractTags "agent:generalist:discord:channel:123" none := by
  have hdj : ∀ s, "discord" ≠ "job:" ++ s := ne_append_of_take _ _ 1 (by decide) (by decide)
  have hdn : ∀ s, "discord" ≠ "name:" ++ s := ne_append_of_take _ _ 1 (by decide) (by decide)
  have hdg : ∀ s, "discord" ≠ "guild:" ++ s := ne_append_of_take _ _ 1 (by decide) (by decide)
  have htj : ∀ s, "telegram" ≠ "job:" ++ s := ne_append_of_take _ _ 1 (by decide) (by decide)
  have htn : ∀ s, "telegram" ≠ "name:" ++ s := ne_append_of_take _ _ 1 (by decide) (by decide)
  have htg : ∀ s, "telegram" ≠ "guild:" ++ s := ne_append_of_take _ _ 1 (by decide) (by decide)
  have hsj : ∀ s, "slack" ≠ "job:" ++ s := ne_append_of_take _ _ 1 (by decide) (by decide)
  have hsn : ∀ s, "slack" ≠ "name:" ++ s := ne_append_of_take _ _ 1 (by decide) (by decide)
  have hsg : ∀ s, "slack" ≠ "guild:" ++ s := ne_append_of_take _ _ 1 (by decide) (by decide)
  have hcch : ∀ s, "cron" ≠ "channel:" ++ s := ne_append_of_take _ _ 2 (by decide) (by decide)
  have hcn : ∀ s, "cron" ≠ "name:" ++ s := ne_append_of_take _ _ 1 (by decide) (by decide)
  have hcg : ∀ s, "cron" ≠ "guild:" ++ s := ne_append_of_take _ _ 1 (by decide) (by decide)
  have htch : ∀ s, "telegram" ≠ "channel:" ++ s := ne_append_of_take _ _ 1 (by decide) (by decide)
  have hsch : ∀ s, "slack" ≠ "channel:" ++ s := ne_append_of_take _ _ 1 (by decide) (by decide)
  refine ⟨?_, ?_, ?_, ?_, ?_, ?_, by decide, by decide, by decide, by decide⟩
  · intro k pr hcr
    have hsrc := sourceTags_cron (sessionSegments k) hcr
    have hbase : "cron" ∈ sourceTags (sessionSegments k) := by
      rw [hsrc]; split <;> simp
    have hnm : ∀ x, (∀ s, x ≠ "job:" ++ s) → x ≠ "cron" →
        x ∉ sourceTags (sessionSegments k) := by
      intro x h1 h2
      rw [hsrc]; split
      · simp only [List.mem_cons, List.not_mem_nil, or_false]
        rintro (h | h)
        · exact h2 h
        · exact h1 _ h
      · simp [h2]
    exact ⟨mem_promptTags pr hbase,
      source_only k pr (hnm _ hdj (by decide)) hdn hdg,
      source_only k pr (hnm _ htj (by decide)) htn htg,
      source_only k pr (hnm _ hsj (by decide)) hsn hsg⟩
  · intro k pr hcr hv
    apply mem_promptTags
    rw [sourceTags_cron (sessionSegments k) hcr, if_pos hv]
    simp
  · intro k pr h1 h2
    have hsrc := sourceTags_discord (sessionSegments k) h1 h2
    have hbase : "discord" ∈ sourceTags (sessionSegments k) := by
      rw [hsrc]; split
      · split <;> simp
      · simp
    have hnm : ∀ x, (∀ s, x ≠ "channel:" ++ s) → x ≠ "discord" →
        x ∉ sourceTags (sessionSegments k) := by
      intro x hx1 hx2
      rw [hsrc]; split
      · split
        · simp only [List.mem_cons, List.not_mem_nil, or_false]
          rintro (h | h)
          · exact hx2 h
          · exact hx1 _ h
        · simp [hx2]
      · simp [hx2]
    exact ⟨mem_promptTags pr hbase,
      source_only k pr (hnm _ hcch (by decide)) hcn hcg,
      source_only k pr (hnm _ htch (by decide)) htn htg,
      source_only k pr (hnm _ hsch (by decide)) hsn hsg⟩
  · intro k pr h1 h2 hch hv
    apply mem_promptTags
    rw [sourceTags_discord (sessionSegments k) h1 h2, if_pos hch, if_pos hv]
    simp
  · intro k pr h1 h2 h3
    show promptTags (sourceTags (sessionSegments k)) pr = ["telegram"]
    rw [sourceTags_telegram _ h1 h2 h3]
    cases pr <;> rfl
  · intro k pr h1 h2 h3 h4
    show promptTags (sourceTags (sessionSegments k)) pr = ["slack"]
    rw [sourceTags_slack _ h1 h2 h3 h4]
    cases pr <;> rfl

/-- Witness for `c9_tag_extraction`: its universal conjuncts applied to
the spec's concrete session keys and to a telegram key. -/
theorem c9_tag_extraction_witness :
    ("cron" ∈ extractTags "agent:generalist:cron:96b7" none ∧
      "discord" ∉ extractTags "agent:generalist:cron:96b7" none ∧
      "telegram" ∉ extractTags "agent:generalist:cron:96b7" none ∧
      "slack" ∉ extractTags "agent:generalist:cron:96b7" none) ∧
    "job:" ++ (sessionSegments "agent:generalist:cron:96b7").getD
      ((sessionSegments "agent:generalist:cron:96b7").indexOf "cron" + 1) ""
      ∈ extractTags "agent:generalist:cron:96b7" none ∧
    extractTags "x:telegram:y" none = ["telegram"] :=
  ⟨c9_tag_extraction.1 "agent:generalist:cron:96b7" none (by decide),
    c9_tag_extraction.2.1 "agent:generalist:cron:96b7" none (by decide) (by decide),
    c9_tag_extraction.2.2.2.2.1 "x:telegram:y" none (by decide) (by decide) (by decide)⟩

/-! Map and scan lemmas used by the registry claims. -/

theorem find_mapSet {α : Type} (m : List (String × α)) (k : String) (v : α) :
    (mapSet m k v).find? (fun p => p.1 == k) = some (k, v) := by
  induction m with
  | nil => simp [mapSet]
  | cons q rest ih =>
    unfold mapSet at ih ⊢
    by_cases hq : q.1 = k
    · have hqb : (q.1 == k) = true := by simpa using hq
      rw [show List.find? (fun p => p.1 == k) (q :: rest) = some q from
        List.find?_cons_of_pos _ hqb]
      simp only [Option.isSome_some, if_true, List.map_cons]
      rw [if_pos hqb]
      rw [show List.find? (fun p => p.1 == k) ((k, v) :: List.map
          (fun p => if (p.1 == k) = true then (k, v) else p) rest) = some (k, v) from
        List.find?_cons_of_pos _ (by simp)]
    · have hqb : ¬((q.1 == k) = true) := by simpa using hq
      rw [show List.find? (fun p => p.1 == k) (q :: rest)
          = List.find? (fun p => p.1 == k) rest from List.find?_cons_of_neg _ hqb]
      cases hf : rest.find? (fun p => p.1 == k) with
      | none =>
        rw [hf] at ih
        simp only [hf, Option.isSome_none, Bool.false_eq_true, if_false] at ih ⊢
        rw [List.cons_append]
        rw [show List.find? (fun p => p.1 == k) (q :: (rest ++ [(k, v)]))
            = List.find? (fun p => p.1 == k) (rest ++ [(k, v)]) from
          List.find?_cons_of_neg _ hqb]
        exact ih
      | some pv =>
        rw [hf] at ih
        simp only [hf, Option.isSome_some, if_true, List.map_cons] at ih ⊢
        rw [if_neg hqb]
        rw [show List.find? (fun p => p.1 == k) (q :: List.map
            (fun p => if (p.1 == k) = true then (k, v) else p) rest)
            = List.find? (fun p => p.1 == k) (List.map
            (fun p => if (p.1 == k) = true then (k, v) else p) rest) from
          List.find?_cons_of_neg _ hqb]
        exact ih

theorem mapGet_mapSet {α : Type} (m : List (String × α)) (k : String) (v : α) :
    mapGet (mapSet m k v) k = some v := by
  rw [mapGet, find_mapSet]
  rfl

theorem mapGet_mapDelete {α : Type} (m : List (String × α)) (k : String) :
    mapGet (mapDelete m k) k = none := by
  unfold mapGet mapDelete
  induction m with
  | nil => rfl
  | cons q rest ih =>
    by_cases hq : q.1 = k
    · simpa [List.filter_cons, hq] using ih
    · have hq' : (q.1 == k) = false := by simpa using hq
      simp only [List.filter_cons, bne, hq', Bool.not_false, if_true]
      rw [List.find?_cons_of_neg _ (by simpa using hq)]
      exact ih

/-- The usage scan is the normalization of the first message satisfying
the assistant-with-usage predicate. -/
theorem usageScan_eq (l : List Message) :
    usageScan l = ((l.find? isAssistantWithUsage).bind (·.usage)).map (fun u =>
      ({ input_tokens := some (u.input.getD 0 + u.cacheRead.getD 0 + u.cacheWrite.getD 0),
         output_tokens := some (u.output.getD 0),
         total_tokens := some (u.input.getD 0 + u.output.getD 0 + u.cacheRead.getD 0 +
           u.cacheWrite.getD 0) } : TokenUsage)) := by
  induction l with
  | nil => rfl
  | cons m rest ih =>
    by_cases hr : m.role = some "assistant"
    · cases hu : m.usage with
      | some u =>
        have hp : isAssistantWithUsage m = true := by
          simp [isAssistantWithUsage, hr, hu]
        rw [List.find?_cons_of_pos _ hp]
        simp [usageScan, hr, hu]
      | none =>
        have hp : isAssistantWithUsage m = false := by
          simp [isAssistantWithUsage, hr, hu]
        rw [List.find?_cons_of_neg _ (by simp [hp])]
        simp [usageScan, hr, hu, ih]
    · have hp : isAssistantWithUsage m = false := by
        simp [isAssistantWithUsage, hr]
      rw [List.find?_cons_of_neg _ (by simp [hp])]
      simp [usageScan, hr, ih]

/-- `extractUsageFromMessages` equals the claim-side description: the
normalized usage of the last assistant message carrying usage data. -/
theorem extractUsage_spec (messages : List Message) :
    extractUsageFromMessages messages
      = (specLastAssistantUsage messages).map (fun u =>
      ({ input_tokens := some (u.input.getD 0 + u.cacheRead.getD 0 + u.cacheWrite.getD 0),
         output_tokens := some (u.output.getD 0),
         total_tokens := some (u.input.getD 0 + u.output.getD 0 + u.cacheRead.getD 0 +
           u.cacheWrite.getD 0) } : TokenUsage)) := by
  rw [extractUsageFromMessages, usageScan_eq, specLastAssistantUsage]

theorem getSessionModelInfo_eq (s : TracerState) (k : String) :
    getSessionModelInfo s k = ((mapGet s.sessionModels k).getD []).getLast? := by
  unfold getSessionModelInfo
  cases mapGet s.sessionModels k <;> simp

theorem getAllSessionModels_eq (s : TracerState) (k : String) :
    getAllSessionModels s k
      = dedupSeen [] (((mapGet s.sessionModels k).getD []).map
          (fun m => m.provider ++ "/" ++ m.model)) := by
  unfold getAllSessionModels
  cases mapGet s.sessionModels k <;> simp [dedupSeen]

/-- C7: unmatched end events are no-ops — a turn-end for a session key
with no open turn span, and a tool-end for an unknown call identifier,
produce no record and leave the registry state (active-span maps and
session ledgers) unchanged; a turn-start without a prompt (or with an
empty, falsy prompt) creates no span.  The embedding functions are total,
so no error reaches the caller. -/
theorem c7_unmatched_ends_are_noops :
    (∀ cfg s k messages success dur now,
      mapGet s.activeAgentRuns (k.getD "default") = none →
      handleAgentEnd cfg s k messages success dur now = (s, [])) ∧
    (∀ s i result err now, mapGet s.activeToolRuns i = none →
      endToolRun s i result err now = (s, [])) ∧
    (∀ cfg s k runId now, handleBeforeAgentStart cfg s k none runId now = (s, [])) ∧
    (∀ cfg s k runId now,
      handleBeforeAgentStart cfg s k (some "") runId now = (s, [])) := by
  refine ⟨?_, ?_, ?_, ?_⟩
  · intro cfg s k messages success dur now h
    simp [handleAgentEnd, endAgentRun, h]
  · intro s i result err now h
    simp [endToolRun, h]
  · intro cfg s k runId now
    rfl
  · intro cfg s k runId now
    simp [handleBeforeAgentStart]

/-- Witness for `c7_unmatched_ends_are_noops` on the empty registry. -/
theorem c7_unmatched_ends_are_noops_witness :
    mapGet (({} : TracerState)).activeAgentRuns ((some "k").getD "default") = none ∧
    handleAgentEnd {} {} (some "k") [] true none sampleDate = ({}, []) ∧
    mapGet (({} : TracerState)).activeToolRuns "t1" = none ∧
    endToolRun {} "t1" JVal.jnull none sampleDate = ({}, []) ∧
    handleBeforeAgentStart {} {} (some "k") none "u1" sampleDate = ({}, []) :=
  ⟨by decide,
    c7_unmatched_ends_are_noops.1 {} {} (some "k") [] true none sampleDate (by decide),
    by decide,
    c7_unmatched_ends_are_noops.2.1 {} "t1" JVal.jnull none sampleDate (by decide),
    c7_unmatched_ends_are_noops.2.2.1 {} {} (some "k") "u1" sampleDate⟩

/-- C10: when the turn-end event closes an open turn with `success` false,
the update record's error field is the fixed string `"Agent turn failed"`;
with `success` true the error field is absent. -/
theorem c10_turn_failure_error :
    ∀ cfg s k msgs usage dur now a, mapGet s.activeAgentRuns k = some a →
      (∃ p, (endAgentRun cfg s k msgs false usage dur now).2
          = [SinkOp.update a.runId p] ∧ p.error = some "Agent turn failed") ∧
      (∃ p, (endAgentRun cfg s k msgs true usage dur now).2
          = [SinkOp.update a.runId p] ∧ p.error = none) := by
  intro cfg s k msgs usage dur now a h
  constructor
  · unfold endAgentRun
    rw [h]
    exact ⟨_, rfl, rfl⟩
  · unfold endAgentRun
    rw [h]
    exact ⟨_, rfl, rfl⟩

/-- Witness for `c10_turn_failure_error` on a concrete one-entry
registry. -/
theorem c10_turn_failure_error_witness :
    mapGet sampleState.activeAgentRuns "k" = some sampleActive ∧
    ((∃ p, (endAgentRun {} sampleState "k" [] false none none sampleDate).2
        = [SinkOp.update sampleActive.runId p] ∧ p.error = some "Agent turn failed") ∧
     (∃ p, (endAgentRun {} sampleState "k" [] true none none sampleDate).2
        = [SinkOp.update sampleActive.runId p] ∧ p.error = none)) :=
  ⟨by decide,
    c10_turn_failure_error {} sampleState "k" [] none none sampleDate sampleActive (by decide)⟩

/-- C3: a tool span's parent is the turn span open for its session at the
moment the tool call started — the create record's parent identifier is
that turn's run id and its trace identifier that turn's trace id, and the
update emitted when the tool call ends (matched by the same call
identifier) carries the same trace id; when no turn is open the parent is
absent and the tool span is its own trace root. -/
theorem c3_tool_span_parent :
    ∀ cfg s k toolName params runId t1 result err t2,
      (∀ a, mapGet s.activeAgentRuns k = some a →
        (startToolRun cfg s k toolName params runId t1).2.1.map createParentTrace
            = [some (some a.runId, a.traceId)] ∧
        (endToolRun (startToolRun cfg s k toolName params runId t1).1
            runId result err t2).2.map updateTrace
            = [some (runId, a.traceId)]) ∧
      (mapGet s.activeAgentRuns k = none →
        (startToolRun cfg s k toolName params runId t1).2.1.map createParentTrace
            = [some (none, runId)] ∧
        (endToolRun (startToolRun cfg s k toolName params runId t1).1
            runId result err t2).2.map updateTrace
            = [some (runId, runId)]) := by
  intro cfg s k toolName params runId t1 result err t2
  constructor
  · intro a h
    have hget : mapGet (startToolRun cfg s k toolName params runId t1).1.activeToolRuns
        runId = some {
          runId := runId, traceId := a.traceId,
          dottedOrder := makeDottedOrder t1 runId (some a.dottedOrder),
          parentRunId := some a.runId, startTime := t1.toISOString } := by
      unfold startToolRun
      rw [h]
      exact mapGet_mapSet _ _ _
    constructor
    · unfold startToolRun
      rw [h]
      rfl
    · unfold endToolRun
      rw [hget]
      rfl
  · intro h
    have hget : mapGet (startToolRun cfg s k toolName params runId t1).1.activeToolRuns
        runId = some {
          runId := runId, traceId := runId,
          dottedOrder := makeDottedOrder t1 runId none,
          parentRunId := none, startTime := t1.toISOString } := by
      unfold startToolRun
      rw [h]
      exact mapGet_mapSet _ _ _
    constructor
    · unfold startToolRun
      rw [h]
      rfl
    · unfold endToolRun
      rw [hget]
      rfl

/-- Witness for `c3_tool_span_parent`: both the open-turn case (on
`sampleState`) and the no-turn case (on the empty registry). -/
theorem c3_tool_span_parent_witness :
    mapGet sampleState.activeAgentRuns "k" = some sampleActive ∧
    ((startToolRun {} sampleState "k" "read" JVal.jnull "t9" sampleDate).2.1.map
        createParentTrace = [some (some sampleActive.runId, sampleActive.traceId)] ∧
      (endToolRun (startToolRun {} sampleState "k" "read" JVal.jnull "t9" sampleDate).1
          "t9" JVal.jnull none sampleDate).2.map updateTrace
          = [some ("t9", sampleActive.traceId)]) ∧
    ((startToolRun {} {} "z" "read" JVal.jnull "t9" sampleDate).2.1.map
        createParentTrace = [some (none, "t9")] ∧
      (endToolRun (startToolRun {} {} "z" "read" JVal.jnull "t9" sampleDate).1
          "t9" JVal.jnull none sampleDate).2.map updateTrace = [some ("t9", "t9")]) :=
  ⟨by decide,
    (c3_tool_span_parent {} sampleState "k" "read" JVal.jnull "t9" sampleDate
      JVal.jnull none sampleDate).1 sampleActive (by decide),
    (c3_tool_span_parent {} {} "z" "read" JVal.jnull "t9" sampleDate
      JVal.jnull none sampleDate).2 (by decide)⟩

/-- C1 counterexample: the claim demands that the token fields on the
update record equal the normalization of the usage on the last assistant
message carrying usage data — here that message exists and normalizes to
`(0, 0, 0)`, yet the code emits **no** token fields (they are gated on a
positive total), so the fields do not equal `(some 0, some 0, some 0)`. -/
theorem c1_zero_usage_counterexample :
    specLastAssistantUsage zeroUsageMessages = some {} ∧
    (handleAgentEnd {} sampleState (some "k") zeroUsageMessages true none
        sampleDate).2.map patchTokenFields ≠ [some (some 0, some 0, some 0)] ∧
    (handleAgentEnd {} sampleState (some "k") zeroUsageMessages true none
        sampleDate).2.map patchTokenFields = [some (none, none, none)] := by
  refine ⟨by decide, by decide, by decide⟩

/-- C1 (amended): for every turn-end event matching an open turn, exactly
one update record is emitted, and its token fields are the deterministic
normalization of the usage on the last assistant message carrying usage
data (promptTokens = input + cacheRead + cacheWrite, completionTokens =
output, totalTokens = promptTokens + completionTokens), **provided the
total is positive**; when the total is zero, or when no assistant message
with usage exists, no token fields are emitted. -/
theorem c1_turn_usage_normalization :
    ∀ cfg s k msgs success dur now a,
      mapGet s.activeAgentRuns (k.getD "default") = some a →
      (handleAgentEnd cfg s k msgs success dur now).2.map patchTokenFields
        = [some (claimTokenTriple msgs)] := by
  intro cfg s k msgs success dur now a h
  simp only [handleAgentEnd, endAgentRun, extractUsage_spec, h]
  cases hu : specLastAssistantUsage msgs with
  | none =>
    simp only [claimTokenTriple, hu]
    rfl
  | some u =>
    simp only [claimTokenTriple, hu]
    show [some
      ((if u.input.getD 0 + u.output.getD 0 + u.cacheRead.getD 0 + u.cacheWrite.getD 0 > 0
          then some (u.input.getD 0 + u.cacheRead.getD 0 + u.cacheWrite.getD 0) else none),
        (if u.input.getD 0 + u.output.getD 0 + u.cacheRead.getD 0 + u.cacheWrite.getD 0 > 0
          then some (u.output.getD 0) else none),
        (if u.input.getD 0 + u.output.getD 0 + u.cacheRead.getD 0 + u.cacheWrite.getD 0 > 0
          then some (u.input.getD 0 + u.output.getD 0 + u.cacheRead.getD 0 + u.cacheWrite.getD 0)
          else none))]
      = [some (if 0 < u.input.getD 0 + u.cacheRead.getD 0 + u.cacheWrite.getD 0 + u.output.getD 0
          then (some (u.input.getD 0 + u.cacheRead.getD 0 + u.cacheWrite.getD 0),
            some (u.output.getD 0),
            some (u.input.getD 0 + u.cacheRead.getD 0 + u.cacheWrite.getD 0 + u.output.getD 0))
          else (none, none, none))]
    rw [show u.input.getD 0 + u.output.getD 0 + u.cacheRead.getD 0 + u.cacheWrite.getD 0
        = u.input.getD 0 + u.cacheRead.getD 0 + u.cacheWrite.getD 0 + u.output.getD 0
      from by omega]
    by_cases hc : 0 < u.input.getD 0 + u.cacheRead.getD 0 + u.cacheWrite.getD 0 + u.output.getD 0
    · simp [hc]
    · simp [hc]

/-- Witness for `c1_turn_usage_normalization`: a turn-end whose last
assistant message has usage `{input 10, output 5, cacheRead 2,
cacheWrite 1}` yields fields `(13, 5, 18)`. -/
theorem c1_turn_usage_normalization_witness :
    mapGet sampleState.activeAgentRuns ((some "k").getD "default") = some sampleActive ∧
    (handleAgentEnd {} sampleState (some "k") usageMessages true none
        sampleDate).2.map patchTokenFields = [some (claimTokenTriple usageMessages)] ∧
    claimTokenTriple usageMessages = (some 13, some 5, some 18) :=
  ⟨by decide,
    c1_turn_usage_normalization {} sampleState (some "k") usageMessages true none
      sampleDate sampleActive (by decide),
    by decide⟩

/-- C5 counterexample: a model-call (engram) event processed while a turn
is open for session `"k"` appends **nothing** to that session's model
ledger — `traceLlmCall` never touches `sessionModels` (the event carries
no session key) — even though the event is processed (one record is
emitted). -/
theorem c5_engram_ledger_counterexample :
    mapGet sampleState.activeAgentRuns "k" = some sampleActive ∧
    (traceLlmCall {} sampleState sampleLlmEnd sampleDate).2.length = 1 ∧
    (traceLlmCall {} sampleState sampleLlmEnd sampleDate).1.sessionModels = [] ∧
    mapGet (traceLlmCall {} sampleState sampleLlmEnd sampleDate).1.sessionModels "k"
      ≠ some [parseModelInfo "claude-3" none] := by
  refine ⟨by decide, by decide, by decide, by decide⟩

/-- C5 (amended): engram model-call events never modify the Session Model
Ledger (they carry no session key); the ledger is populated only by
`recordLlmCall`, which appends the resolved identity for its session key
unconditionally; on turn close the dominant identity attached to the
update's outputs is the last-recorded ledger entry, the distinct
`provider/model` strings (first-seen order) are attached as `all_models`
exactly when more than one distinct string was recorded, and the ledger
for the session key is cleared. -/
theorem c5_model_ledger :
    (∀ cfg s e now, (traceLlmCall cfg s e now).1.sessionModels = s.sessionModels) ∧
    (∀ s k model prov, mapGet (recordLlmCall s k model prov).sessionModels k
        = some ((mapGet s.sessionModels k).getD [] ++ [parseModelInfo model prov])) ∧
    (∀ cfg s k msgs success usage dur now a, mapGet s.activeAgentRuns k = some a →
      ∃ ob, (endAgentRun cfg s k msgs success usage dur now).2.map patchOutputs
          = [some (some ob)] ∧
        ob.model = (((mapGet s.sessionModels k).getD []).getLast?).map (·.model) ∧
        ob.provider = (((mapGet s.sessionModels k).getD []).getLast?).map (·.provider) ∧
        ob.all_models = (if (dedupSeen [] (((mapGet s.sessionModels k).getD []).map
              (fun m => m.provider ++ "/" ++ m.model))).length > 1
            then some (dedupSeen [] (((mapGet s.sessionModels k).getD []).map
              (fun m => m.provider ++ "/" ++ m.model)))
            else none) ∧
        mapGet (endAgentRun cfg s k msgs success usage dur now).1.sessionModels k
          = none) := by
  refine ⟨?_, ?_, ?_⟩
  · intro cfg s e now
    unfold traceLlmCall
    by_cases hk : e.kind = "llm_start"
    · simp [hk]
    · simp only [hk, if_false]
      cases mapGet s.activeToolRuns ("llm:" ++ e.traceId) <;> rfl
  · intro s k model prov
    unfold recordLlmCall
    exact mapGet_mapSet _ _ _
  · intro cfg s k msgs success usage dur now a h
    unfold endAgentRun
    rw [h]
    refine ⟨_, rfl, ?_, ?_, ?_, ?_⟩
    · show (getSessionModelInfo s k).map (·.model) = _
      rw [getSessionModelInfo_eq]
    · show (getSessionModelInfo s k).map (·.provider) = _
      rw [getSessionModelInfo_eq]
    · show (if (getAllSessionModels s k).length > 1
          then some (getAllSessionModels s k) else none) = _
      rw [getAllSessionModels_eq]
    · exact mapGet_mapDelete _ _

/-- Witness for `c5_model_ledger`: a turn close over a two-identity
ledger. -/
theorem c5_model_ledger_witness :
    mapGet sampleLedgerState.activeAgentRuns "k" = some sampleActive ∧
    ∃ ob, (endAgentRun {} sampleLedgerState "k" [] true none none sampleDate).2.map
        patchOutputs = [some (some ob)] ∧
      ob.model = (((mapGet sampleLedgerState.sessionModels "k").getD []).getLast?).map
        (·.model) ∧
      ob.provider = (((mapGet sampleLedgerState.sessionModels "k").getD []).getLast?).map
        (·.provider) ∧
      ob.all_models = (if (dedupSeen [] (((mapGet sampleLedgerState.sessionModels
            "k").getD []).map (fun m => m.provider ++ "/" ++ m.model))).length > 1
          then some (dedupSeen [] (((mapGet sampleLedgerState.sessionModels "k").getD
            []).map (fun m => m.provider ++ "/" ++ m.model)))
          else none) ∧
      mapGet (endAgentRun {} sampleLedgerState "k" [] true none none
        sampleDate).1.sessionModels "k" = none :=
  ⟨by decide,
    c5_model_ledger.2.2 {} sampleLedgerState "k" [] true none none sampleDate
      sampleActive (by decide)⟩

/-- C6 counterexample: a turn for session key `agent:x:cron:96b7` opened
with prompt `"hi"` closes with update tags `[]` — not the Tag Extractor's
`["cron", "job:96b7"]`; the extractor tags are attached to the create
record at turn start, not to the update. -/
theorem c6_update_tags_counterexample :
    extractTags "agent:x:cron:96b7" (some "hi") = ["cron", "job:96b7"] ∧
    (endAgentRun {} (startAgentRun {} {} "agent:x:cron:96b7" "hi" "u1" sampleDate).1
        "agent:x:cron:96b7" [] true none none sampleDate).2.map patchTags
      = [some (some [])] ∧
    some (some ([] : List String)) ≠ some (some ["cron", "job:96b7"]) := by
  refine ⟨by decide, by decide, by decide⟩

/-- C6 (amended): the Tag Extractor's tags (from the session key and the
turn-start prompt) are attached to the **create** record emitted at turn
start (omitted when empty); the **update** record emitted at turn close
instead carries `provider:`/`model:` tags derived from the dominant ledger
identity, or the empty tag list when no identity was recorded. -/
theorem c6_update_tags :
    (∀ cfg s k prompt runId now,
      (startAgentRun cfg s k prompt runId now).2.map createTags
        = [some (if (extractTags k (some prompt)).length > 0
            then some (extractTags k (some prompt)) else none)]) ∧
    (∀ cfg s k msgs success usage dur now a, mapGet s.activeAgentRuns k = some a →
      (endAgentRun cfg s k msgs success usage dur now).2.map patchTags
        = [some (some (match ((mapGet s.sessionModels k).getD []).getLast? with
            | some mi => ["provider:" ++ mi.provider, "model:" ++ mi.model]
            | none => []))]) := by
  constructor
  · intro cfg s k prompt runId now
    rfl
  · intro cfg s k msgs success usage dur now a h
    unfold endAgentRun
    rw [h, getSessionModelInfo_eq]
    rfl

/-- Witness for `c6_update_tags`: the update after a turn over a populated
ledger carries the identity tags of the last-recorded model. -/
theorem c6_update_tags_witness :
    mapGet sampleLedgerState.activeAgentRuns "k" = some sampleActive ∧
    (endAgentRun {} sampleLedgerState "k" [] true none none sampleDate).2.map patchTags
      = [some (some (match ((mapGet sampleLedgerState.sessionModels "k").getD
          []).getLast? with
          | some mi => ["provider:" ++ mi.provider, "model:" ++ mi.model]
          | none => []))] :=
  ⟨by decide,
    c6_update_tags.2 {} sampleLedgerState "k" [] true none none sampleDate
      sampleActive (by decide)⟩

/-- C8: flushing an empty buffer performs no network call; flushing a
non-empty buffer empties it synchronously (before the network call
resolves) with the drained contents as the in-flight batch, so a record
enqueued during the network call lands in the fresh buffer and is not in
that batch; and the response handling never touches the client state — a
failed batch is dropped, never re-enqueued. -/
theorem c8_flush_buffer :
    (∀ s, s.queue = [] → flushStart s = (s, none)) ∧
    (∀ s, s.queue ≠ [] →
      (flushStart s).1.queue = [] ∧ (flushStart s).2 = some s.queue) ∧
    (∀ cfg s run, s.queue ≠ [] → 1 < cfg.batchMaxSize →
      (createRun cfg (flushStart s).1 run).1.queue = [createRunOp run] ∧
      (createRun cfg (flushStart s).1 run).2 = none) ∧
    (∀ s ok, flushComplete s ok = s) := by
  refine ⟨?_, ?_, ?_, fun s ok => rfl⟩
  · intro s h
    simp [flushStart, h]
  · intro s h
    simp [flushStart, h]
  · intro cfg s run h hmax
    have h2 : (flushStart s).1.queue = [] := by simp [flushStart, h]
    unfold createRun
    rw [h2]
    have h3 : ¬([] ++ [createRunOp run]).length ≥ cfg.batchMaxSize := by
      simp
      omega
    rw [if_neg h3]
    exact ⟨rfl, rfl⟩

/-- Witness for `c8_flush_buffer` on a one-record buffer. -/
theorem c8_flush_buffer_witness :
    flushStart ({} : ClientState) = ({}, none) ∧
    ((flushStart sampleClientState).1.queue = [] ∧
      (flushStart sampleClientState).2 = some sampleClientState.queue) ∧
    ((createRun {} (flushStart sampleClientState).1 sampleRun).1.queue
        = [createRunOp sampleRun] ∧
      (createRun {} (flushStart sampleClientState).1 sampleRun).2 = none) ∧
    flushComplete sampleClientState false = sampleClientState :=
  ⟨c8_flush_buffer.1 {} (by decide),
    c8_flush_buffer.2.1 sampleClientState (by decide),
    c8_flush_buffer.2.2.1 {} sampleClientState sampleRun (by decide) (by decide),
    c8_flush_buffer.2.2.2 sampleClientState false⟩

/-! Decimal-numeral string lemmas for the ordering-key claim: the fuel
recursion of `Nat.toDigitsCore` is characterized, `pad` is shown to be the
fixed-width big-endian digit string `digitsBE`, and `digitsBE` is strictly
monotone under lexicographic comparison. -/

theorem toDigitsCore_fuel_irrel : ∀ n fuel fuel' acc, n < fuel → n < fuel' →
    Nat.toDigitsCore 10 fuel n acc = Nat.toDigitsCore 10 fuel' n acc := by
  intro n
  induction n using Nat.strong_induction_on with
  | _ n ih =>
    intro fuel fuel' acc h h'
    match fuel, fuel' with
    | f + 1, f' + 1 =>
      simp only [Nat.toDigitsCore]
      by_cases h10 : n / 10 = 0
      · simp [h10]
      · simp only [h10, if_false]
        exact ih (n / 10) (by omega) f f' _ (by omega) (by omega)

theorem toDigitsCore_acc : ∀ n fuel acc, n < fuel →
    Nat.toDigitsCore 10 fuel n acc = Nat.toDigitsCore 10 fuel n [] ++ acc := by
  intro n
  induction n using Nat.strong_induction_on with
  | _ n ih =>
    intro fuel acc h
    match fuel with
    | f + 1 =>
      simp only [Nat.toDigitsCore]
      by_cases h10 : n / 10 = 0
      · simp [h10]
      · simp only [h10, if_false]
        rw [ih (n / 10) (by omega) f _ (by omega),
          ih (n / 10) (by omega) f [Nat.digitChar (n % 10)] (by omega),
          List.append_assoc]
        rfl

theorem toDigits_rec (n : Nat) : Nat.toDigits 10 n =
    if n < 10 then [Nat.digitChar n]
    else Nat.toDigits 10 (n / 10) ++ [Nat.digitChar (n % 10)] := by
  unfold Nat.toDigits
  by_cases h : n < 10
  · have h10 : n / 10 = 0 := Nat.div_eq_of_lt h
    have hm : n % 10 = n := Nat.mod_eq_of_lt h
    simp [Nat.toDigitsCore, h10, h, hm]
  · have h10 : n / 10 ≠ 0 := by omega
    rw [if_neg h]
    rw [show Nat.toDigitsCore 10 (n + 1) n []
        = Nat.toDigitsCore 10 n (n / 10) [Nat.digitChar (n % 10)] from by
      simp [Nat.toDigitsCore, h10]]
    rw [toDigitsCore_acc (n / 10) n [Nat.digitChar (n % 10)] (by omega),
      toDigitsCore_fuel_irrel (n / 10) n (n / 10 + 1) [] (by omega) (by omega)]

theorem digitsBE_zero : ∀ len, digitsBE len 0 = List.replicate len '0'
  | 0 => rfl
  | len + 1 => by
    rw [show digitsBE (len + 1) 0 = digitsBE len 0 ++ [Nat.digitChar 0] from rfl,
      digitsBE_zero len, List.replicate_succ']
    rfl

theorem digitsBE_length : ∀ len n, (digitsBE len n).length = len
  | 0, _ => rfl
  | len + 1, n => by
    rw [show digitsBE (len + 1) n = digitsBE len (n / 10) ++ [Nat.digitChar (n % 10)]
      from rfl]
    simp [digitsBE_length len]

theorem padList_eq_digitsBE : ∀ len n, 1 ≤ len → n < 10 ^ len →
    List.replicate (len - (Nat.toDigits 10 n).length) '0' ++ Nat.toDigits 10 n
      = digitsBE len n := by
  intro len
  induction len with
  | zero => omega
  | succ len ih =>
    intro n _ hn
    by_cases h : n < 10
    · rw [toDigits_rec n, if_pos h]
      show List.replicate (len + 1 - 1) '0' ++ [Nat.digitChar n] = _
      rw [show digitsBE (len + 1) n = digitsBE len (n / 10) ++ [Nat.digitChar (n % 10)]
        from rfl]
      rw [Nat.div_eq_of_lt h, Nat.mod_eq_of_lt h, digitsBE_zero len]
      simp
    · have hlen : 1 ≤ len := by
        by_contra hc
        have : len = 0 := by omega
        subst this
        simp at hn
        omega
      rw [toDigits_rec n, if_neg h]
      rw [show digitsBE (len + 1) n = digitsBE len (n / 10) ++ [Nat.digitChar (n % 10)]
        from rfl]
      rw [← ih (n / 10) hlen (by omega)]
      rw [List.length_append, List.length_singleton]
      rw [show len + 1 - ((Nat.toDigits 10 (n / 10)).length + 1)
          = len - (Nat.toDigits 10 (n / 10)).length from by omega]
      rw [← List.append_assoc]

theorem digitsBE_head : ∀ len n, (digitsBE (len + 1) n).head?
    = some (Nat.digitChar (n / 10 ^ len % 10)) := by
  intro len
  induction len with
  | zero =>
    intro n
    show ([] ++ [Nat.digitChar (n % 10)]).head? = _
    simp
  | succ len ih =>
    intro n
    show (digitsBE (len + 1) (n / 10) ++ [Nat.digitChar (n % 10)]).head? = _
    rw [List.head?_append]
    rw [ih (n / 10)]
    rw [Nat.div_div_eq_div_mul]
    rw [show 10 * 10 ^ len = 10 ^ (len + 1) from by ring]
    rfl

theorem repr_data_eq_digitsBE4 (y : Nat) (h1 : 1000 ≤ y) (h2 : y ≤ 9999) :
    (Nat.repr y).data = digitsBE 4 y := by
  have hkey := padList_eq_digitsBE 4 y (by omega) (by omega)
  have hL : 4 ≤ (Nat.toDigits 10 y).length := by
    by_contra hc
    have hrep : (4 - (Nat.toDigits 10 y).length) = (3 - (Nat.toDigits 10 y).length) + 1 := by
      omega
    have hhead := congrArg List.head? hkey
    rw [hrep, List.replicate_succ, List.cons_append, List.head?_cons, digitsBE_head] at hhead
    have hdiv : y / 10 ^ 3 % 10 = y / 1000 := by
      have : y / 1000 ≤ 9 := by omega
      simp only [show (10 : Nat) ^ 3 = 1000 from by norm_num]
      omega
    rw [hdiv] at hhead
    have hd9 : 1 ≤ y / 1000 ∧ y / 1000 ≤ 9 := by omega
    have hno : ∀ v < 10, 1 ≤ v → Nat.digitChar v ≠ '0' := by decide
    exact hno (y / 1000) (by omega) hd9.1 (by injection hhead with hh; exact hh.symm)
  have hrep0 : (4 - (Nat.toDigits 10 y).length) = 0 := by omega
  rw [hrep0] at hkey
  simp only [List.replicate_zero, List.nil_append] at hkey
  show (List.asString (Nat.toDigits 10 y)).data = _
  rw [show (List.asString (Nat.toDigits 10 y)).data = Nat.toDigits 10 y from rfl]
  exact hkey

theorem lex_append_left {l a b : List Char} (h : a < b) : l ++ a < l ++ b := by
  induction l with
  | nil => exact h
  | cons c cs ih => exact List.Lex.cons ih

theorem lex_append_of_lt : ∀ {a b : List Char}, a < b → a.length = b.length →
    ∀ s t, a ++ s < b ++ t := by
  intro a b h
  induction h with
  | nil => intro hlen; simp at hlen
  | cons h ih => intro hlen s t; exact List.Lex.cons (ih (by simpa using hlen) s t)
  | rel hab => intro hlen s t; exact List.Lex.rel hab


theorem digitChar_mono : ∀ a < 10, ∀ b < 10, a < b →
    Nat.digitChar a < Nat.digitChar b := by decide

theorem digitsBE_mono : ∀ len n m, n < m → m < 10 ^ len →
    digitsBE len n < digitsBE len m := by
  intro len
  induction len with
  | zero => intro n m h1 h2; omega
  | succ len ih =>
    intro n m h1 h2
    show digitsBE len (n / 10) ++ [Nat.digitChar (n % 10)]
      < digitsBE len (m / 10) ++ [Nat.digitChar (m % 10)]
    by_cases hd : n / 10 = m / 10
    · rw [hd]
      have hmod : n % 10 < m % 10 := by omega
      have hc : Nat.digitChar (n % 10) < Nat.digitChar (m % 10) :=
        digitChar_mono _ (by omega) _ (by omega) hmod
      exact lex_append_left (List.Lex.rel hc)
    · have hdiv : n / 10 < m / 10 := by omega
      have hm10 : m / 10 < 10 ^ len := by
        have : (10 : Nat) ^ (len + 1) = 10 ^ len * 10 := by ring
        omega
      exact lex_append_of_lt (ih _ _ hdiv hm10)
        (by rw [digitsBE_length, digitsBE_length]) _ _

/-- `pad` unfolded to the zero-padded core digit string. -/
theorem pad_data (n len : Nat) : (pad n len).data
    = List.replicate (len - (Nat.toDigits 10 n).length) '0' ++ Nat.toDigits 10 n := rfl

/-- In range, `pad` is exactly the fixed-width digit string. -/
theorem pad_data_eq_digitsBE (n len : Nat) (h1 : 1 ≤ len) (h2 : n < 10 ^ len) :
    (pad n len).data = digitsBE len n := by
  rw [pad_data]
  exact padList_eq_digitsBE len n h1 h2

/-- The timestamp component of the ordering key, decomposed into its
fixed-width blocks (right associated) for a valid date. -/
theorem format_data_valid (d : JsDate) (h : d.valid) :
    (formatDottedOrderTime d).data
      = digitsBE 4 d.year ++ (digitsBE 2 (d.month + 1) ++ (digitsBE 2 d.day ++
        ('T' :: (digitsBE 2 d.hour ++ (digitsBE 2 d.minute ++ (digitsBE 2 d.second ++
        (digitsBE 3 d.ms ++ "000Z".data))))))) := by
  obtain ⟨hy1, hy2, hmo, hd, hh, hmi, hs, hms⟩ := h
  show ((Nat.repr d.year) ++ pad (d.month + 1) 2 ++ pad d.day 2 ++ "T" ++ pad d.hour 2 ++
    pad d.minute 2 ++ pad d.second 2 ++ pad d.ms 3 ++ "000Z").data = _
  simp only [String.data_append]
  rw [show (Nat.repr d.year).data = digitsBE 4 d.year from
      repr_data_eq_digitsBE4 d.year hy1 hy2,
    pad_data_eq_digitsBE (d.month + 1) 2 (by omega) (by omega),
    pad_data_eq_digitsBE d.day 2 (by omega) (by omega),
    pad_data_eq_digitsBE d.hour 2 (by omega) (by omega),
    pad_data_eq_digitsBE d.minute 2 (by omega) (by omega),
    pad_data_eq_digitsBE d.second 2 (by omega) (by omega),
    pad_data_eq_digitsBE d.ms 3 (by omega) (by omega)]
  simp [List.append_assoc]

/-- The timestamp component has fixed width 22 for valid dates. -/
theorem format_length (d : JsDate) (h : d.valid) :
    (formatDottedOrderTime d).data.length = 22 := by
  rw [format_data_valid d h]
  simp [digitsBE_length]

/-- Chronologically earlier valid instants give lexicographically smaller
timestamp strings. -/
theorem format_mono (d1 d2 : JsDate) (h1 : d1.valid) (h2 : d2.valid)
    (hb : JsDate.before d1 d2) :
    (formatDottedOrderTime d1).data < (formatDottedOrderTime d2).data := by
  have hv1 := h1
  have hv2 := h2
  obtain ⟨a1, a2, a3, a4, a5, a6, a7, a8⟩ := hv1
  obtain ⟨b1, b2, b3, b4, b5, b6, b7, b8⟩ := hv2
  rw [format_data_valid d1 h1, format_data_valid d2 h2]
  rcases hb with hy | ⟨hy, hb⟩
  · exact lex_append_of_lt (digitsBE_mono 4 _ _ hy (by omega))
      (by rw [digitsBE_length, digitsBE_length]) _ _
  rw [hy]
  apply lex_append_left
  rcases hb with hmo | ⟨hmo, hb⟩
  · exact lex_append_of_lt (digitsBE_mono 2 _ _ (by omega) (by omega))
      (by rw [digitsBE_length, digitsBE_length]) _ _
  rw [hmo]
  apply lex_append_left
  rcases hb with hd | ⟨hd, hb⟩
  · exact lex_append_of_lt (digitsBE_mono 2 _ _ hd (by omega))
      (by rw [digitsBE_length, digitsBE_length]) _ _
  rw [hd]
  apply lex_append_left
  apply List.Lex.cons
  rcases hb with hh | ⟨hh, hb⟩
  · exact lex_append_of_lt (digitsBE_mono 2 _ _ hh (by omega))
      (by rw [digitsBE_length, digitsBE_length]) _ _
  rw [hh]
  apply lex_append_left
  rcases hb with hmi | ⟨hmi, hb⟩
  · exact lex_append_of_lt (digitsBE_mono 2 _ _ hmi (by omega))
      (by rw [digitsBE_length, digitsBE_length]) _ _
  rw [hmi]
  apply lex_append_left
  rcases hb with hs | ⟨hs, hb⟩
  · exact lex_append_of_lt (digitsBE_mono 2 _ _ hs (by omega))
      (by rw [digitsBE_length, digitsBE_length]) _ _
  rw [hs]
  apply lex_append_left
  exact lex_append_of_lt (digitsBE_mono 3 _ _ hb (by omega))
    (by rw [digitsBE_length, digitsBE_length]) _ _

/-- C4 counterexample: two children of the same parent created within the
same millisecond tick (the first drew run id `"bbb"`, the second `"aaa"`):
the first-created child's ordering key is **not** lexicographically less
than the second's, because the tie falls through to the random id
segment. -/
theorem c4_same_tick_counterexample :
    ¬ (makeDottedOrder sampleDate "bbb" (some "P")
        < makeDottedOrder sampleDate "aaa" (some "P")) := by
  rw [String.lt_iff_toList_lt]
  decide

/-- C4 (amended): for children of a parent P, both ordering keys extend
`orderingKey(P) ++ "."`, and the key of a child created at a **strictly
earlier millisecond instant** (with both instants valid 4-digit-year
dates) is lexicographically strictly smaller; within one clock tick the
key does not encode creation order. -/
theorem c4_ordering_keys :
    (∀ p t i, ∃ s, makeDottedOrder t i (some p) = p ++ "." ++ s) ∧
    (∀ p i1 i2 t1 t2, JsDate.valid t1 → JsDate.valid t2 → JsDate.before t1 t2 →
      makeDottedOrder t1 i1 (some p) < makeDottedOrder t2 i2 (some p)) := by
  constructor
  · intro p t i
    refine ⟨formatDottedOrderTime t ++ stripDashes i, ?_⟩
    show p ++ "." ++ formatDottedOrderTime t ++ stripDashes i = _
    rw [String.append_assoc]
  · intro p i1 i2 t1 t2 h1 h2 hb
    rw [String.lt_iff_toList_lt]
    show (p ++ "." ++ formatDottedOrderTime t1 ++ stripDashes i1).data
      < (p ++ "." ++ formatDottedOrderTime t2 ++ stripDashes i2).data
    simp only [String.data_append, List.append_assoc]
    apply lex_append_left
    show '.' :: ((formatDottedOrderTime t1).data ++ (stripDashes i1).data)
      < '.' :: ((formatDottedOrderTime t2).data ++ (stripDashes i2).data)
    apply List.Lex.cons
    exact lex_append_of_lt (format_mono t1 t2 h1 h2 hb)
      (by rw [format_length t1 h1, format_length t2 h2]) _ _

/-- Witness for `c4_ordering_keys`: two children one millisecond apart. -/
theorem c4_ordering_keys_witness :
    JsDate.valid sampleDate ∧ JsDate.valid sampleDateLater ∧
    JsDate.before sampleDate sampleDateLater ∧
    makeDottedOrder sampleDate "bbb" (some "P")
      < makeDottedOrder sampleDateLater "aaa" (some "P") :=
  ⟨by decide, by decide, by decide,
    c4_ordering_keys.2 "P" "bbb" "aaa" sampleDate sampleDateLater
      (by decide) (by decide) (by decide)⟩

end OpenClawLangSmith
